import Mathlib

/-!
The awless `show` command (commands/show.go).

A shallow embedding of `showCmd.RunE`, `runFullSync` and
`findResourceInLocalGraphs`.  The command is stateful: it reads the locally
persisted graphs, may call the syncer (which replaces them), and writes to the
logger and to the terminal.  The embedding threads an explicit state made of
the external world `W` (the persisted graphs) and a trace of every call the
command makes to a collaborator.  The collaborators that live in other
packages (`graph`, `sync`, `cloud`, `aws`, `console`) are the fields of `Env`.
-/

namespace Awless

/-- A `*graph.Resource` as show.go observes it: `Type()`, `Id()`, and the
property set that the displayer renders. -/
structure Resource where
  type : String
  id : String
  properties : List (String × String)
deriving DecidableEq, Repr

/-- Calls made by the command, in program order.  `G` is `graph.Graph`,
`S` is `cloud.Service`. -/
inductive Event (G S : Type) where
  /-- Entry of `findResourceInLocalGraphs(id)`. -/
  | enterFindResourceInLocalGraphs (id : String)
  /-- Entry of `runFullSync()`. -/
  | enterRunFullSync
  /-- Call of `sync.LoadCurrentLocalGraph(name)`. -/
  | loadCurrentLocalGraph (name : String)
  /-- Call of `g.FindResource(id)`. -/
  | findResource (g : G) (id : String)
  /-- Call of `logger.Info(msg)`. -/
  | info (msg : String)
  /-- Call of `logger.Verbosef(...)`, already formatted. -/
  | verbosef (msg : String)
  /-- The function `cloud.GetServiceForType(t)`. -/
  | getServiceForType (t : String)
  /-- Call of `sync.DefaultSyncer.Sync(services...)`. -/
  | sync (services : List S)
  /-- Call of `displayer.Print(os.Stderr)` for the resource set as source. -/
  | displayPrint (r : Resource)
  /-- A write to standard output (`fmt.Println`, `fmt.Printf`, `fmt.Fprintf(os.Stdout, ...)`). -/
  | stdout (s : String)
  /-- Call of `g.VisitParents(root, each)`. -/
  | visitParents (g : G) (root : Resource)
  /-- Call of `g.VisitChildren(root, each)`. -/
  | visitChildren (g : G) (root : Resource)
  /-- Call of `g.VisitSiblings(root, each)`. -/
  | visitSiblings (g : G) (root : Resource)
  /-- Call of `g.ListResourcesAppliedOn(root)`. -/
  | listResourcesAppliedOn (g : G) (root : Resource)
  /-- Call of `g.ListResourcesDependingOn(root)`. -/
  | listResourcesDependingOn (g : G) (root : Resource)
deriving DecidableEq, Repr

/-- How a piece of the command ends. -/
inductive Outcome (α : Type) where
  /-- Control falls through to the next statement with value `a`. -/
  | ok (a : α)
  /-- The function `RunE` executed `return err` (`none` is `return nil`). -/
  | returned (err : Option String)
  /-- The process was terminated by `exitOn(err)` with a non-nil `err`. -/
  | exited (err : String)
  /-- A method was called through a nil `*graph.Resource` or `*graph.Graph`. -/
  | nilDeref
deriving DecidableEq, Repr

/-- The collaborators of show.go.  Go functions returning `(v, error)` are
`Except String v`. -/
structure Env (G S W : Type) where
  /-- The list `aws.ServiceNames`. -/
  ServiceNames : List String
  /-- The Go map `cloud.ServiceRegistry`, as its list of entries. -/
  ServiceRegistry : List (String × S)
  /-- The persisted graph of a service, `sync.LoadCurrentLocalGraph(name)`. -/
  LoadCurrentLocalGraph : W → String → G
  /-- The method `(*graph.Graph).FindResource(id)`; `ok none` is the `(nil, nil)` result. -/
  FindResource : G → String → Except String (Option Resource)
  /-- The function `cloud.GetServiceForType(t)`. -/
  GetServiceForType : String → Except String S
  /-- The method `sync.DefaultSyncer.Sync(services...)`: the world after the call
  and the returned `(map[string]*graph.Graph, error)`. -/
  Sync : List S → W → W × Except String (List (String × G))
  /-- The call `displayer.Print(os.Stderr)` built for a resource; `some e` is an error. -/
  DisplayPrint : Resource → Option String
  /-- The `(resource, distance)` pairs `VisitParents` hands to its callback. -/
  VisitParents : G → Resource → List (Resource × Int)
  /-- The `(resource, distance)` pairs `VisitChildren` hands to its callback. -/
  VisitChildren : G → Resource → List (Resource × Int)
  /-- The `(resource, distance)` pairs `VisitSiblings` hands to its callback. -/
  VisitSiblings : G → Resource → List (Resource × Int)
  /-- The method `(*graph.Graph).ListResourcesAppliedOn(root)`. -/
  ListResourcesAppliedOn : G → Resource → Except String (List Resource)
  /-- The method `(*graph.Graph).ListResourcesDependingOn(root)`. -/
  ListResourcesDependingOn : G → Resource → Except String (List Resource)

/-- Machine state: the external world and the calls made so far. -/
structure St (G S W : Type) where
  world : W
  trace : List (Event G S)
deriving DecidableEq, Repr

/-- A command fragment: a state transformer with an outcome. -/
def M (G S W α : Type) : Type := St G S W → Outcome α × St G S W

variable {G S W : Type}

/-- Sequencing: only `ok` continues. -/
def M.bind {α β : Type} (m : M G S W α) (f : α → M G S W β) : M G S W β :=
  fun s =>
    match m s with
    | (Outcome.ok a, s1) => f a s1
    | (Outcome.returned e, s1) => (Outcome.returned e, s1)
    | (Outcome.exited e, s1) => (Outcome.exited e, s1)
    | (Outcome.nilDeref, s1) => (Outcome.nilDeref, s1)

/-- Falling through with a value. -/
def M.pure {α : Type} (a : α) : M G S W α := fun s => (Outcome.ok a, s)

instance : Monad (M G S W) where
  pure := M.pure
  bind := M.bind

/-- Record a call in the trace. -/
def emit (e : Event G S) : M G S W Unit :=
  fun s => (Outcome.ok (), { s with trace := s.trace ++ [e] })

/-- The Go statement `return err` inside `RunE`. -/
def ret {α : Type} (err : Option String) : M G S W α :=
  fun s => (Outcome.returned err, s)

/-- Modelled from the spec: `exitOn` is defined elsewhere in package
`commands` and is not part of show.go.  The spec says a failure is "surfaced
as an error and aborts": a nil error is a no-op, a non-nil error ends the
command at once with that error. -/
def exitOn (err : Option String) : M G S W Unit :=
  match err with
  | none => M.pure ()
  | some e => fun s => (Outcome.exited e, s)

/-- The idiom `v, err := f(...); exitOn(err)` for a Go call returning
`(v, error)`: on an error the command ends as `exitOn` ends it. -/
def exitOnErr {α : Type} (r : Except String α) : M G S W α :=
  match r with
  | Except.ok v => M.pure v
  | Except.error e => fun s => (Outcome.exited e, s)

/-- The idiom `graphs, err := sync.DefaultSyncer.Sync(services...); exitOn(err)`
(show.go:118-119 and 58-59): the call is recorded and replaces the world, and
a non-nil error ends the command as `exitOn` ends it. -/
def callSync (env : Env G S W) (services : List S) : M G S W (List (String × G)) :=
  fun s =>
    let s1 : St G S W := { s with trace := s.trace ++ [Event.sync services] }
    match env.Sync services s.world with
    | (w1, Except.error e) => (Outcome.exited e, { s1 with world := w1 })
    | (w1, Except.ok graphs) => (Outcome.ok graphs, { s1 with world := w1 })

/-- The loop body of `findResourceInLocalGraphs` (show.go:125-132) over the
remaining service names. -/
def findLoop (env : Env G S W) (id : String) :
    List String → M G S W (Option Resource × Option G)
  | [] => M.pure (none, none)
  | name :: rest => fun s =>
    let g := env.LoadCurrentLocalGraph s.world name
    let s1 : St G S W :=
      { s with trace := s.trace ++ [Event.loadCurrentLocalGraph name, Event.findResource g id] }
    match env.FindResource g id with
    | Except.error e => (Outcome.exited e, s1)
    | Except.ok (some localRes) => (Outcome.ok (some localRes, some g), s1)
    | Except.ok none => findLoop env id rest s1

/-- The function `findResourceInLocalGraphs` (show.go:124-134). -/
def findResourceInLocalGraphs (env : Env G S W) (id : String) :
    M G S W (Option Resource × Option G) := do
  emit (Event.enterFindResourceInLocalGraphs id)
  findLoop env id env.ServiceNames

/-- The `for _, srv := range cloud.ServiceRegistry` loop of `runFullSync`
(show.go:113-116), fed with the entries in the order the range delivers
them. -/
def collectServices (order : List (String × S)) : List S :=
  order.foldl (fun services entry => services ++ [entry.2]) []

/-- The function `runFullSync` (show.go:110-122).  `order` is the order in which ranging
over the map `cloud.ServiceRegistry` delivers its entries. -/
def runFullSync (env : Env G S W) (order : List (String × S)) :
    M G S W (List (String × G)) := do
  emit Event.enterRunFullSync
  emit (Event.info "cannot resolve resource - running full sync")
  let services := collectServices order
  callSync env services

/-- The message built at show.go:35. -/
def notFoundMsg (id : String) : String :=
  "resource with id " ++ id ++ " not found"

/-- Lookup with fallback (show.go:40-52).  Falls through with the values of
the variables `resource` and `gph` at line 54. -/
def RunE_lookup (env : Env G S W) (order : List (String × S)) (localFlag : Bool)
    (id : String) : M G S W (Option Resource × Option G) := do
  let (resource, gph) ← findResourceInLocalGraphs env id
  if resource.isNone && localFlag then
    emit (Event.info (notFoundMsg id))
    ret none
  else if resource.isNone then
    let _ ← runFullSync env order
    let (resource2, gph2) ← findResourceInLocalGraphs env id
    if resource2.isNone then
      emit (Event.info (notFoundMsg id))
      ret none
    else
      M.pure (resource2, gph2)
  else
    M.pure (resource, gph)

/-- Targeted resync (show.go:54-60).  The graphs returned by `Sync` are
discarded (`_, err = ...`); `resource` and `gph` are not assigned. -/
def RunE_sync (env : Env G S W) (localFlag : Bool) (resource : Option Resource) :
    M G S W Unit :=
  if !localFlag then
    match resource with
    | none => fun s => (Outcome.nilDeref, s)
    | some r => do
      emit (Event.getServiceForType r.type)
      let srv ← exitOnErr (env.GetServiceForType r.type)
      emit (Event.verbosef ("syncing service for " ++ r.type ++ " type"))
      let _ ← callSync env [srv]
      M.pure ()
  else
    M.pure ()

/-- The string of `distance` tab characters built at show.go:71-74. -/
def tabsOf (distance : Int) : String :=
  String.mk (List.replicate distance.toNat '\t')

/-- The line `"%s%s[%s]\n"` written at show.go:76. -/
def tabbedLine (r : Resource) (distance : Int) : String :=
  tabsOf distance ++ r.type ++ "[" ++ r.id ++ "]\n"

/-- The closure `printWithTabs` (show.go:70-78); `resource` is the captured
root. -/
def printWithTabs (resource r : Resource) (distance : Int) : M G S W Unit :=
  if resource.id ≠ r.id then
    emit (Event.stdout (tabbedLine r distance))
  else
    M.pure ()

/-- The closure `collectFn` (show.go:81-85) as a function of the captured
slice `collected`. -/
def collectFn (resource : Resource) (collected : List Resource) (r : Resource)
    (_distance : Int) : List Resource :=
  if resource.id ≠ r.id then collected ++ [r] else collected

/-- A visit that calls `printWithTabs` on each delivered pair. -/
def visitPrinting (resource : Resource) : List (Resource × Int) → M G S W Unit
  | [] => M.pure ()
  | (r, d) :: rest => do
    printWithTabs resource r d
    visitPrinting resource rest

/-- A visit that calls `collectFn` on each delivered pair. -/
def visitCollecting (resource : Resource) (collected : List Resource)
    (visits : List (Resource × Int)) : List Resource :=
  visits.foldl (fun acc p => collectFn resource acc p.1 p.2) collected

/-- The text of one entry in `printResourceList` (show.go:139). -/
def resourceLabel (res : Resource) : String :=
  res.type ++ "[" ++ res.id ++ "]"

/-- The function `printResourceList` (show.go:136-144). -/
def printResourceList (title : String) (list : List Resource) : M G S W Unit :=
  let all := list.foldl (fun all res => all ++ [resourceLabel res]) []
  if all.length > 0 then
    emit (Event.stdout ("\n" ++ title ++ ": " ++ String.intercalate ", " all ++ "\n"))
  else
    M.pure ()

/-- Display and traversal (show.go:62-104). -/
def RunE_display (env : Env G S W) (resource : Option Resource) (gph : Option G) :
    M G S W Unit :=
  match resource with
  | none => M.pure ()
  | some r => do
    emit (Event.displayPrint r)
    exitOn (env.DisplayPrint r)
    emit (Event.stdout "\nParents:\n")
    match gph with
    | none => fun s => (Outcome.nilDeref, s)
    | some g => do
      emit (Event.visitParents g r)
      visitPrinting r (env.VisitParents g r)
      emit (Event.stdout "\nChildren:\n")
      emit (Event.visitChildren g r)
      visitPrinting r (env.VisitChildren g r)
      emit (Event.visitSiblings g r)
      let collected := visitCollecting r [] (env.VisitSiblings g r)
      printResourceList "Siblings" collected
      emit (Event.listResourcesAppliedOn g r)
      let appliedOn ← exitOnErr (env.ListResourcesAppliedOn g r)
      printResourceList "Applied on" appliedOn
      emit (Event.listResourcesDependingOn g r)
      let dependingOn ← exitOnErr (env.ListResourcesDependingOn g r)
      printResourceList "Depending on" dependingOn

/-- The function `showCmd.RunE` (show.go:29-107). -/
def RunE (env : Env G S W) (order : List (String × S)) (localFlag : Bool)
    (args : List String) : M G S W Unit :=
  match args with
  | [] => ret (some "id required")
  | id :: _ => do
    let (resource, gph) ← RunE_lookup env order localFlag id
    RunE_sync env localFlag resource
    RunE_display env resource gph
    ret none

/-- Run a fragment from world `w` with an empty trace. -/
def run {α : Type} (m : M G S W α) (w : W) : Outcome α × St G S W :=
  m { world := w, trace := [] }

/-! ## Classifying the calls of a trace -/

/-- A call of `sync.DefaultSyncer.Sync`. -/
def Event.isSync : Event G S → Bool
  | Event.sync _ => true
  | _ => false

/-- An entry of `runFullSync`. -/
def Event.isRunFullSync : Event G S → Bool
  | Event.enterRunFullSync => true
  | _ => false

/-- An entry of `findResourceInLocalGraphs`. -/
def Event.isLookup : Event G S → Bool
  | Event.enterFindResourceInLocalGraphs _ => true
  | _ => false

/-- A relationship query on a graph: a visit or a listing. -/
def Event.isTraversal : Event G S → Bool
  | Event.visitParents _ _ => true
  | Event.visitChildren _ _ => true
  | Event.visitSiblings _ _ => true
  | Event.listResourcesAppliedOn _ _ => true
  | Event.listResourcesDependingOn _ _ => true
  | _ => false

/-- Something shown to the operator: the displayer or standard output. -/
def Event.isDisplay : Event G S → Bool
  | Event.displayPrint _ => true
  | Event.stdout _ => true
  | _ => false

/-- A step inside the loop of `findResourceInLocalGraphs`. -/
def Event.isLoadOrFind : Event G S → Bool
  | Event.loadCurrentLocalGraph _ => true
  | Event.findResource _ _ => true
  | _ => false

/-- A call the lookup phase (show.go:40-52) can make. -/
def Event.inLookupStep : Event G S → Bool
  | Event.enterFindResourceInLocalGraphs _ => true
  | Event.enterRunFullSync => true
  | Event.loadCurrentLocalGraph _ => true
  | Event.findResource _ _ => true
  | Event.info _ => true
  | Event.sync _ => true
  | _ => false

/-- A call the targeted-resync step (show.go:54-60) can make. -/
def Event.inSyncStep : Event G S → Bool
  | Event.getServiceForType _ => true
  | Event.verbosef _ => true
  | Event.sync _ => true
  | _ => false

/-- A call the display step (show.go:62-104) can make. -/
def Event.inDisplayStep : Event G S → Bool
  | Event.displayPrint _ => true
  | Event.stdout _ => true
  | Event.visitParents _ _ => true
  | Event.visitChildren _ _ => true
  | Event.visitSiblings _ _ => true
  | Event.listResourcesAppliedOn _ _ => true
  | Event.listResourcesDependingOn _ _ => true
  | _ => false

/-- The calls of `runFullSync` up to and including its `Sync` call. -/
def fullSyncEvents (order : List (String × S)) : List (Event G S) :=
  [Event.enterRunFullSync, Event.info "cannot resolve resource - running full sync",
    Event.sync (collectServices order)]

/-- The calls of the targeted-resync step for a resource of type `t` whose
service is `srv`. -/
def targetedSyncEvents (t : String) (srv : S) : List (Event G S) :=
  [Event.getServiceForType t, Event.verbosef ("syncing service for " ++ t ++ " type"),
    Event.sync [srv]]

/-- Number of `Sync` calls in a trace. -/
def syncCalls (t : List (Event G S)) : Nat := t.countP Event.isSync

/-- Number of `runFullSync` calls in a trace. -/
def fullSyncCalls (t : List (Event G S)) : Nat := t.countP Event.isRunFullSync

/-- Number of `findResourceInLocalGraphs` calls in a trace. -/
def lookupCalls (t : List (Event G S)) : Nat := t.countP Event.isLookup

/-- Number of relationship queries in a trace. -/
def traversalCalls (t : List (Event G S)) : Nat := t.countP Event.isTraversal

/-- Number of displayer and standard-output writes in a trace. -/
def displayCalls (t : List (Event G S)) : Nat := t.countP Event.isDisplay

/-- No persisted graph holds `id` in world `w`: `FindResource` answers
`(nil, nil)` on the local graph of every service name. -/
def Misses (env : Env G S W) (id : String) (w : W) : Prop :=
  ∀ name ∈ env.ServiceNames,
    env.FindResource (env.LoadCurrentLocalGraph w name) id = Except.ok none

/-! ## A concrete installation

Two services.  A graph is the pair of its service name and the generation of
the sync that wrote it, the world is the current generation.  Instance `i-1`
is in every generation of `infra`; `i-2` only appears once a sync has run;
a sync started in generation 7 fails. -/

/-- The resource `instance[i-1]`. -/
def demoI1 : Resource := { type := "instance", id := "i-1", properties := [] }

/-- The resource `instance[i-2]`. -/
def demoI2 : Resource := { type := "instance", id := "i-2", properties := [] }

/-- The resource `subnet[s-1]`. -/
def demoS1 : Resource := { type := "subnet", id := "s-1", properties := [] }

/-- The demo installation. -/
def demoEnv : Env (String × Nat) String Nat where
  ServiceNames := ["infra", "access"]
  ServiceRegistry := [("infra", "infra"), ("access", "access")]
  LoadCurrentLocalGraph := fun w name => (name, w)
  FindResource := fun g id =>
    if g.1 = "infra" ∧ id = "i-1" then Except.ok (some demoI1)
    else if g.1 = "infra" ∧ id = "i-2" ∧ 1 ≤ g.2 then Except.ok (some demoI2)
    else Except.ok none
  GetServiceForType := fun t =>
    if t = "instance" then Except.ok "infra" else Except.error "no service for type"
  Sync := fun services w =>
    if w = 7 then (w, Except.error "fetch failed")
    else (w + 1, Except.ok (services.map (fun n => (n, (n, w + 1)))))
  DisplayPrint := fun _ => none
  VisitParents := fun g _ => [(demoS1, 1 + g.2)]
  VisitChildren := fun _ _ => []
  VisitSiblings := fun _ r => [(r, 1), (demoI2, 1)]
  ListResourcesAppliedOn := fun _ _ => Except.ok []
  ListResourcesDependingOn := fun _ _ => Except.ok []

/-- The demo installation with a registry of one service. -/
def demoEnvOne : Env (String × Nat) String Nat :=
  { demoEnv with ServiceRegistry := [("infra", "infra")] }

/-- The calls made by the loop of `findResourceInLocalGraphs` when it goes
through all of `names` in world `w`. -/
def loadEvents (env : Env G S W) (id : String) (w : W) : List String → List (Event G S)
  | [] => []
  | n :: rest =>
    Event.loadCurrentLocalGraph n :: Event.findResource (env.LoadCurrentLocalGraph w n) id ::
      loadEvents env id w rest

/-- The visited resources with only the root node removed, a node being
identified by its type together with its id (the data model's identity). -/
def withoutRootNode (root : Resource) (visits : List (Resource × Int)) : List Resource :=
  (visits.map Prod.fst).filter (fun r => decide (¬ (r.type = root.type ∧ r.id = root.id)))

/-- The resource `subnet[i-1]`: the id of `demoI1` under another type. -/
def demoSubnetI1 : Resource := { type := "subnet", id := "i-1", properties := [] }

/-- The rest of `RunE` once `resource` and `gph` are set (show.go:54-106). -/
def RunE_rest (env : Env G S W) (localFlag : Bool) (resource : Option Resource)
    (gph : Option G) : M G S W Unit :=
  M.bind (RunE_sync env localFlag resource) fun _ =>
    M.bind (RunE_display env resource gph) fun _ => ret none

/-- A fragment never dereferences nil and only adds calls satisfying `P`. -/
def Emits {α : Type} (P : Event G S → Prop) (m : M G S W α) : Prop :=
  ∀ s, (m s).1 ≠ Outcome.nilDeref ∧
    ∃ t, (m s).2.trace = s.trace ++ t ∧ ∀ e ∈ t, P e

/-! ## Sequencing lemmas -/

@[simp] theorem bind_eq {α β : Type} (m : M G S W α) (f : α → M G S W β) :
    (m >>= f) = M.bind m f := rfl

@[simp] theorem pure_eq {α : Type} (a : α) : (pure a : M G S W α) = M.pure a := rfl

theorem loadEvents_append (env : Env G S W) (id : String) (w : W) (xs ys : List String) :
    loadEvents env id w (xs ++ ys) = loadEvents env id w xs ++ loadEvents env id w ys := by
  induction xs with
  | nil => rfl
  | cons x xs ih => simp [loadEvents, ih]

theorem loadEvents_isLoadOrFind (env : Env G S W) (id : String) (w : W) (names : List String) :
    ∀ e ∈ loadEvents env id w names, Event.isLoadOrFind e = true := by
  induction names with
  | nil => simp [loadEvents]
  | cons n rest ih =>
    intro e he
    simp only [loadEvents, List.mem_cons] at he
    rcases he with rfl | rfl | he
    · rfl
    · rfl
    · exact ih e he

/-- The loop leaves the world alone and only adds load and find calls. -/
theorem findLoop_state (env : Env G S W) (id : String) :
    ∀ (names : List String) (s : St G S W), ∃ t,
      (findLoop env id names s).2 = { world := s.world, trace := s.trace ++ t } ∧
      ∀ e ∈ t, Event.isLoadOrFind e = true := by
  intro names
  induction names with
  | nil => intro s; exact ⟨[], by simp [findLoop, M.pure], by simp⟩
  | cons n rest ih =>
    intro s
    rcases hf : env.FindResource (env.LoadCurrentLocalGraph s.world n) id with e | o
    · refine ⟨[Event.loadCurrentLocalGraph n,
        Event.findResource (env.LoadCurrentLocalGraph s.world n) id], ?_, ?_⟩
      · simp [findLoop, hf]
      · intro e he; simp at he; rcases he with rfl | rfl <;> rfl
    · cases o with
      | some r =>
        refine ⟨[Event.loadCurrentLocalGraph n,
          Event.findResource (env.LoadCurrentLocalGraph s.world n) id], ?_, ?_⟩
        · simp [findLoop, hf]
        · intro e he; simp at he; rcases he with rfl | rfl <;> rfl
      | none =>
        obtain ⟨t, ht, hP⟩ := ih { s with trace := s.trace ++ [Event.loadCurrentLocalGraph n,
          Event.findResource (env.LoadCurrentLocalGraph s.world n) id] }
        refine ⟨Event.loadCurrentLocalGraph n ::
          Event.findResource (env.LoadCurrentLocalGraph s.world n) id :: t, ?_, ?_⟩
        · simp [findLoop, hf, ht]
        · intro e he
          simp only [List.mem_cons] at he
          rcases he with rfl | rfl | he
          · rfl
          · rfl
          · exact hP e he

/-- When every name before `name` misses and `name` hits, the loop stops at
`name`. -/
theorem findLoop_hit (env : Env G S W) (id : String) (name : String) (post : List String)
    (r : Resource) :
    ∀ (pre : List String) (s : St G S W),
      (∀ n ∈ pre, env.FindResource (env.LoadCurrentLocalGraph s.world n) id = Except.ok none) →
      env.FindResource (env.LoadCurrentLocalGraph s.world name) id = Except.ok (some r) →
      findLoop env id (pre ++ name :: post) s =
        (Outcome.ok (some r, some (env.LoadCurrentLocalGraph s.world name)),
          { world := s.world, trace := s.trace ++ loadEvents env id s.world (pre ++ [name]) }) := by
  intro pre
  induction pre with
  | nil =>
    intro s _ hhit
    simp [findLoop, hhit, loadEvents]
  | cons p pre ih =>
    intro s hpre hhit
    have hp := hpre p (by simp)
    have hrest : ∀ n ∈ pre,
        env.FindResource (env.LoadCurrentLocalGraph s.world n) id = Except.ok none :=
      fun n hn => hpre n (by simp [hn])
    have h := ih { s with trace := s.trace ++ [Event.loadCurrentLocalGraph p,
      Event.findResource (env.LoadCurrentLocalGraph s.world p) id] } hrest hhit
    simp [findLoop, hp, loadEvents] at h ⊢
    exact h

/-- When every name misses, the loop goes through all of them and answers
`(nil, nil)`. -/
theorem findLoop_miss (env : Env G S W) (id : String) :
    ∀ (names : List String) (s : St G S W),
      (∀ n ∈ names, env.FindResource (env.LoadCurrentLocalGraph s.world n) id = Except.ok none) →
      findLoop env id names s =
        (Outcome.ok (none, none),
          { world := s.world, trace := s.trace ++ loadEvents env id s.world names }) := by
  intro names
  induction names with
  | nil => intro s _; simp [findLoop, M.pure, loadEvents]
  | cons p rest ih =>
    intro s hall
    have hp := hall p (by simp)
    have h := ih { s with trace := s.trace ++ [Event.loadCurrentLocalGraph p,
      Event.findResource (env.LoadCurrentLocalGraph s.world p) id] }
      (fun n hn => hall n (by simp [hn]))
    simp [findLoop, hp, loadEvents] at h ⊢
    exact h

/-- The three ways the loop can end. -/
theorem findLoop_outcome (env : Env G S W) (id : String) :
    ∀ (names : List String) (s : St G S W),
      ((findLoop env id names s).1 = Outcome.ok (none, none) ∧
        ∀ n ∈ names, env.FindResource (env.LoadCurrentLocalGraph s.world n) id = Except.ok none) ∨
      (∃ r n, n ∈ names ∧
        env.FindResource (env.LoadCurrentLocalGraph s.world n) id = Except.ok (some r) ∧
        (findLoop env id names s).1 =
          Outcome.ok (some r, some (env.LoadCurrentLocalGraph s.world n))) ∨
      (∃ e n, n ∈ names ∧
        env.FindResource (env.LoadCurrentLocalGraph s.world n) id = Except.error e ∧
        (findLoop env id names s).1 = Outcome.exited e) := by
  intro names
  induction names with
  | nil => intro s; left; simp [findLoop, M.pure]
  | cons p rest ih =>
    intro s
    rcases hf : env.FindResource (env.LoadCurrentLocalGraph s.world p) id with e | o
    · right; right
      exact ⟨e, p, by simp, hf, by simp [findLoop, hf]⟩
    · cases o with
      | some r =>
        right; left
        exact ⟨r, p, by simp, hf, by simp [findLoop, hf]⟩
      | none =>
        have h := ih { s with trace := s.trace ++ [Event.loadCurrentLocalGraph p,
          Event.findResource (env.LoadCurrentLocalGraph s.world p) id] }
        rcases h with ⟨h1, h2⟩ | ⟨r, n, hn, h1, h2⟩ | ⟨e, n, hn, h1, h2⟩
        · left
          refine ⟨by simpa [findLoop, hf] using h1, ?_⟩
          intro n hn
          simp only [List.mem_cons] at hn
          rcases hn with rfl | hn
          · exact hf
          · exact h2 n hn
        · right; left
          exact ⟨r, n, by simp [hn], h1, by simpa [findLoop, hf] using h2⟩
        · right; right
          exact ⟨e, n, by simp [hn], h1, by simpa [findLoop, hf] using h2⟩

theorem find_unfold (env : Env G S W) (id : String) (s : St G S W) :
    findResourceInLocalGraphs env id s =
      findLoop env id env.ServiceNames
        { s with trace := s.trace ++ [Event.enterFindResourceInLocalGraphs id] } := by
  simp [findResourceInLocalGraphs, M.bind, emit]

/-- A lookup leaves the world alone; it records its entry and then only load
and find calls. -/
theorem find_state (env : Env G S W) (id : String) (s : St G S W) :
    ∃ t, (findResourceInLocalGraphs env id s).2 =
        { world := s.world, trace := s.trace ++ Event.enterFindResourceInLocalGraphs id :: t } ∧
      ∀ e ∈ t, Event.isLoadOrFind e = true := by
  obtain ⟨t, ht, hP⟩ := findLoop_state env id env.ServiceNames
    { s with trace := s.trace ++ [Event.enterFindResourceInLocalGraphs id] }
  exact ⟨t, by simp [find_unfold, ht], hP⟩

theorem find_miss (env : Env G S W) (id : String) (s : St G S W)
    (hmiss : Misses env id s.world) :
    findResourceInLocalGraphs env id s =
      (Outcome.ok (none, none),
        { world := s.world,
          trace := s.trace ++ Event.enterFindResourceInLocalGraphs id ::
            loadEvents env id s.world env.ServiceNames }) := by
  have h := findLoop_miss env id env.ServiceNames
    { s with trace := s.trace ++ [Event.enterFindResourceInLocalGraphs id] } hmiss
  simp [find_unfold, h]

theorem find_outcome (env : Env G S W) (id : String) (s : St G S W) :
    ((findResourceInLocalGraphs env id s).1 = Outcome.ok (none, none) ∧ Misses env id s.world) ∨
    (∃ r n, n ∈ env.ServiceNames ∧
      env.FindResource (env.LoadCurrentLocalGraph s.world n) id = Except.ok (some r) ∧
      (findResourceInLocalGraphs env id s).1 =
        Outcome.ok (some r, some (env.LoadCurrentLocalGraph s.world n))) ∨
    (∃ e n, n ∈ env.ServiceNames ∧
      env.FindResource (env.LoadCurrentLocalGraph s.world n) id = Except.error e ∧
      (findResourceInLocalGraphs env id s).1 = Outcome.exited e) := by
  have h := findLoop_outcome env id env.ServiceNames
    { s with trace := s.trace ++ [Event.enterFindResourceInLocalGraphs id] }
  simpa [find_unfold, Misses] using h

theorem collectServices_from (order : List (String × S)) :
    ∀ acc : List S,
      order.foldl (fun services entry => services ++ [entry.2]) acc = acc ++ order.map Prod.snd := by
  induction order with
  | nil => intro acc; simp
  | cons x xs ih => intro acc; simp [ih]

theorem collectServices_eq (order : List (String × S)) :
    collectServices order = order.map Prod.snd := by
  simp [collectServices, collectServices_from]

/-- What a printing visit writes: one line per delivered pair whose id
differs from the root's id, in delivery order. -/
theorem visitPrinting_eq (root : Resource) :
    ∀ (visits : List (Resource × Int)) (s : St G S W),
      visitPrinting root visits s =
        (Outcome.ok (),
          { s with trace := (s.trace ++
              (visits.filter (fun p => decide (root.id ≠ p.1.id))).map
                (fun p => Event.stdout (tabbedLine p.1 p.2))) }) := by
  intro visits
  induction visits with
  | nil => intro s; simp [visitPrinting, M.pure]
  | cons p rest ih =>
    intro s
    obtain ⟨r, d⟩ := p
    by_cases h : root.id = r.id
    · simp [visitPrinting, printWithTabs, M.bind, M.pure, h, ih]
    · simp [visitPrinting, printWithTabs, M.bind, emit, h, ih]

/-- What a collecting visit appends: the delivered resources whose id differs
from the root's id, in delivery order. -/
theorem visitCollecting_eq (root : Resource) :
    ∀ (visits : List (Resource × Int)) (collected : List Resource),
      visitCollecting root collected visits =
        collected ++ (visits.map Prod.fst).filter (fun r => decide (root.id ≠ r.id)) := by
  intro visits
  induction visits with
  | nil => intro collected; simp [visitCollecting]
  | cons p rest ih =>
    intro collected
    obtain ⟨r, d⟩ := p
    have ih2 := ih (collectFn root collected r d)
    simp only [visitCollecting] at ih2
    by_cases h : root.id = r.id
    · simp [visitCollecting, collectFn, h] at ih2 ⊢
      exact ih2
    · simp [visitCollecting, collectFn, h] at ih2 ⊢
      exact ih2

theorem Emits.pure {α : Type} (P : Event G S → Prop) (a : α) :
    Emits P (M.pure a : M G S W α) := by
  intro s
  exact ⟨by simp [M.pure], [], by simp [M.pure], by simp⟩

theorem Emits.ret {α : Type} (P : Event G S → Prop) (err : Option String) :
    Emits P (ret err : M G S W α) := by
  intro s
  exact ⟨by simp [Awless.ret], [], by simp [Awless.ret], by simp⟩

theorem Emits.emit (P : Event G S → Prop) (e : Event G S) (h : P e) :
    Emits P (emit e : M G S W Unit) := by
  intro s
  exact ⟨by simp [Awless.emit], [e], by simp [Awless.emit], by simpa using h⟩

theorem Emits.exitOn (P : Event G S → Prop) (err : Option String) :
    Emits P (exitOn err : M G S W Unit) := by
  intro s
  cases err with
  | none => exact ⟨by simp [Awless.exitOn, M.pure], [], by simp [Awless.exitOn, M.pure], by simp⟩
  | some e => exact ⟨by simp [Awless.exitOn], [], by simp [Awless.exitOn], by simp⟩

theorem Emits.exitOnErr {α : Type} (P : Event G S → Prop) (r : Except String α) :
    Emits P (exitOnErr r : M G S W α) := by
  intro s
  cases r with
  | ok v => exact ⟨by simp [Awless.exitOnErr, M.pure], [], by simp [Awless.exitOnErr, M.pure],
      by simp⟩
  | error e => exact ⟨by simp [Awless.exitOnErr], [], by simp [Awless.exitOnErr], by simp⟩

theorem Emits.callSync (P : Event G S → Prop) (env : Env G S W) (services : List S)
    (h : P (Event.sync services)) : Emits P (callSync env services) := by
  intro s
  rcases hs : env.Sync services s.world with ⟨w1, e | g⟩
  · exact ⟨by simp [Awless.callSync, hs], [Event.sync services], by simp [Awless.callSync, hs],
      by simpa using h⟩
  · exact ⟨by simp [Awless.callSync, hs], [Event.sync services], by simp [Awless.callSync, hs],
      by simpa using h⟩

theorem Emits.bind {α β : Type} {P : Event G S → Prop} {m : M G S W α} {f : α → M G S W β}
    (hm : Emits P m) (hf : ∀ a, Emits P (f a)) : Emits P (M.bind m f) := by
  intro s
  obtain ⟨hn, t, ht, hP⟩ := hm s
  rcases hms : m s with ⟨o, s1⟩
  rw [hms] at hn ht
  cases o with
  | ok a =>
    obtain ⟨hn2, t2, ht2, hP2⟩ := hf a s1
    refine ⟨by simpa [M.bind, hms] using hn2, t ++ t2, ?_, ?_⟩
    · simp only [M.bind, hms]
      rw [ht2]
      simp only at ht
      rw [ht, List.append_assoc]
    · intro e he
      rcases List.mem_append.1 he with h | h
      · exact hP e h
      · exact hP2 e h
  | returned e => exact ⟨by simp [M.bind, hms], t, by simpa [M.bind, hms] using ht, hP⟩
  | exited e => exact ⟨by simp [M.bind, hms], t, by simpa [M.bind, hms] using ht, hP⟩
  | nilDeref => exact absurd rfl hn

theorem Emits.mono {α : Type} {P Q : Event G S → Prop} {m : M G S W α}
    (hm : Emits P m) (hPQ : ∀ e, P e → Q e) : Emits Q m := by
  intro s
  obtain ⟨hn, t, ht, hP⟩ := hm s
  exact ⟨hn, t, ht, fun e he => hPQ e (hP e he)⟩

theorem find_emits (env : Env G S W) (id : String) :
    Emits (fun e => Event.inLookupStep e = true) (findResourceInLocalGraphs env id) := by
  intro s
  constructor
  · rcases find_outcome env id s with ⟨h, _⟩ | ⟨r, n, _, _, h⟩ | ⟨e, n, _, _, h⟩ <;> simp [h]
  · obtain ⟨t, ht, hP⟩ := find_state env id s
    refine ⟨Event.enterFindResourceInLocalGraphs id :: t, by simp [ht], ?_⟩
    intro e he
    simp only [List.mem_cons] at he
    rcases he with rfl | he
    · rfl
    · have := hP e he
      cases e <;> simp_all [Event.isLoadOrFind, Event.inLookupStep]

theorem runFullSync_emits (env : Env G S W) (order : List (String × S)) :
    Emits (fun e => Event.inLookupStep e = true) (runFullSync env order) := by
  simp only [runFullSync, bind_eq]
  exact Emits.bind (Emits.emit _ _ rfl) fun _ =>
    Emits.bind (Emits.emit _ _ rfl) fun _ => Emits.callSync _ _ _ rfl

theorem RunE_lookup_emits (env : Env G S W) (order : List (String × S)) (localFlag : Bool)
    (id : String) :
    Emits (fun e => Event.inLookupStep e = true) (RunE_lookup env order localFlag id) := by
  simp only [RunE_lookup, bind_eq]
  refine Emits.bind (find_emits env id) fun a => ?_
  obtain ⟨resource, gph⟩ := a
  simp only
  split
  · exact Emits.bind (Emits.emit _ _ rfl) fun _ => Emits.ret _ _
  · split
    · refine Emits.bind (runFullSync_emits env order) fun _ => ?_
      refine Emits.bind (find_emits env id) fun b => ?_
      obtain ⟨resource2, gph2⟩ := b
      simp only
      split
      · exact Emits.bind (Emits.emit _ _ rfl) fun _ => Emits.ret _ _
      · exact Emits.pure _ _
    · exact Emits.pure _ _

theorem visitPrinting_emits (root : Resource) (visits : List (Resource × Int)) :
    Emits (fun e : Event G S => Event.inDisplayStep e = true)
      (visitPrinting root visits : M G S W Unit) := by
  intro s
  rw [visitPrinting_eq]
  refine ⟨by simp, _, rfl, ?_⟩
  intro e he
  simp only [List.mem_map] at he
  obtain ⟨p, _, rfl⟩ := he
  rfl

theorem printResourceList_emits (title : String) (list : List Resource) :
    Emits (fun e : Event G S => Event.inDisplayStep e = true)
      (printResourceList title list : M G S W Unit) := by
  simp only [printResourceList]
  split
  · exact Emits.emit _ _ rfl
  · exact Emits.pure _ _

theorem RunE_display_emits (env : Env G S W) (r : Resource) (g : G) :
    Emits (fun e => Event.inDisplayStep e = true) (RunE_display env (some r) (some g)) := by
  simp only [RunE_display, bind_eq]
  refine Emits.bind (Emits.emit _ _ rfl) fun _ => ?_
  refine Emits.bind (Emits.exitOn _ _) fun _ => ?_
  refine Emits.bind (Emits.emit _ _ rfl) fun _ => ?_
  refine Emits.bind (Emits.emit _ _ rfl) fun _ => ?_
  refine Emits.bind (visitPrinting_emits _ _) fun _ => ?_
  refine Emits.bind (Emits.emit _ _ rfl) fun _ => ?_
  refine Emits.bind (Emits.emit _ _ rfl) fun _ => ?_
  refine Emits.bind (visitPrinting_emits _ _) fun _ => ?_
  refine Emits.bind (Emits.emit _ _ rfl) fun _ => ?_
  refine Emits.bind (printResourceList_emits _ _) fun _ => ?_
  refine Emits.bind (Emits.emit _ _ rfl) fun _ => ?_
  refine Emits.bind (Emits.exitOnErr _ _) fun _ => ?_
  refine Emits.bind (printResourceList_emits _ _) fun _ => ?_
  refine Emits.bind (Emits.emit _ _ rfl) fun _ => ?_
  refine Emits.bind (Emits.exitOnErr _ _) fun _ => ?_
  exact printResourceList_emits _ _

theorem RunE_sync_emits (env : Env G S W) (localFlag : Bool) (r : Resource) :
    Emits (fun e => Event.inSyncStep e = true) (RunE_sync env localFlag (some r)) := by
  simp only [RunE_sync, bind_eq]
  split
  · refine Emits.bind (Emits.emit _ _ rfl) fun _ => ?_
    refine Emits.bind (Emits.exitOnErr _ _) fun srv => ?_
    refine Emits.bind (Emits.emit _ _ rfl) fun _ => ?_
    exact Emits.bind (Emits.callSync _ _ _ rfl) fun _ => Emits.pure _ _
  · exact Emits.pure _ _

theorem runFullSync_eq (env : Env G S W) (order : List (String × S)) (s : St G S W) :
    runFullSync env order s =
      match env.Sync (collectServices order) s.world with
      | (w1, Except.error e) =>
        (Outcome.exited e, { world := w1, trace := s.trace ++ fullSyncEvents order })
      | (w1, Except.ok graphs) =>
        (Outcome.ok graphs, { world := w1, trace := s.trace ++ fullSyncEvents order }) := by
  simp only [runFullSync, bind_eq, M.bind, emit, callSync, fullSyncEvents]
  rcases env.Sync (collectServices order) s.world with ⟨w1, e | g⟩ <;> simp

/-- The three results of a lookup, with the state it leaves. -/
theorem find_cases (env : Env G S W) (id : String) (s : St G S W) :
    ∃ t, (∀ e ∈ t, Event.isLoadOrFind e = true) ∧
      ((findResourceInLocalGraphs env id s =
          (Outcome.ok (none, none),
            { world := s.world,
              trace := s.trace ++ Event.enterFindResourceInLocalGraphs id :: t }) ∧
          Misses env id s.world) ∨
        (∃ r g, findResourceInLocalGraphs env id s =
          (Outcome.ok (some r, some g),
            { world := s.world,
              trace := s.trace ++ Event.enterFindResourceInLocalGraphs id :: t })) ∨
        (∃ e, findResourceInLocalGraphs env id s =
          (Outcome.exited e,
            { world := s.world,
              trace := s.trace ++ Event.enterFindResourceInLocalGraphs id :: t }))) := by
  obtain ⟨t, ht, hP⟩ := find_state env id s
  refine ⟨t, hP, ?_⟩
  rcases find_outcome env id s with ⟨h, hm⟩ | ⟨r, n, _, _, h⟩ | ⟨e, n, _, _, h⟩
  · left; exact ⟨Prod.ext h ht, hm⟩
  · right; left; exact ⟨r, _, Prod.ext h ht⟩
  · right; right; exact ⟨e, Prod.ext h ht⟩

theorem lookup_hit (env : Env G S W) (order : List (String × S)) (localFlag : Bool)
    (id : String) (s s1 : St G S W) (r : Resource) (g : Option G)
    (h : findResourceInLocalGraphs env id s = (Outcome.ok (some r, g), s1)) :
    RunE_lookup env order localFlag id s = (Outcome.ok (some r, g), s1) := by
  simp [RunE_lookup, M.bind, h, M.pure]

theorem lookup_exit (env : Env G S W) (order : List (String × S)) (localFlag : Bool)
    (id : String) (s s1 : St G S W) (e : String)
    (h : findResourceInLocalGraphs env id s = (Outcome.exited e, s1)) :
    RunE_lookup env order localFlag id s = (Outcome.exited e, s1) := by
  simp [RunE_lookup, M.bind, h]

theorem lookup_miss_local (env : Env G S W) (order : List (String × S))
    (id : String) (s s1 : St G S W) (g : Option G)
    (h : findResourceInLocalGraphs env id s = (Outcome.ok (none, g), s1)) :
    RunE_lookup env order true id s =
      (Outcome.returned none, { s1 with trace := s1.trace ++ [Event.info (notFoundMsg id)] }) := by
  simp [RunE_lookup, M.bind, h, emit, ret]

theorem lookup_miss_sync_error (env : Env G S W) (order : List (String × S))
    (id : String) (s s1 : St G S W) (g : Option G) (w1 : W) (e : String)
    (h : findResourceInLocalGraphs env id s = (Outcome.ok (none, g), s1))
    (hs : env.Sync (collectServices order) s1.world = (w1, Except.error e)) :
    RunE_lookup env order false id s =
      (Outcome.exited e, { world := w1, trace := s1.trace ++ fullSyncEvents order }) := by
  simp [RunE_lookup, M.bind, h, runFullSync_eq, hs]

theorem lookup_retry_miss (env : Env G S W) (order : List (String × S))
    (id : String) (s s1 s3 : St G S W) (g g2 : Option G) (w1 : W) (graphs : List (String × G))
    (h : findResourceInLocalGraphs env id s = (Outcome.ok (none, g), s1))
    (hs : env.Sync (collectServices order) s1.world = (w1, Except.ok graphs))
    (h2 : findResourceInLocalGraphs env id
      { world := w1, trace := s1.trace ++ fullSyncEvents order } = (Outcome.ok (none, g2), s3)) :
    RunE_lookup env order false id s =
      (Outcome.returned none, { s3 with trace := s3.trace ++ [Event.info (notFoundMsg id)] }) := by
  simp [RunE_lookup, M.bind, h, runFullSync_eq, hs, h2, emit, ret]

theorem lookup_retry_hit (env : Env G S W) (order : List (String × S))
    (id : String) (s s1 s3 : St G S W) (g g2 : Option G) (w1 : W) (graphs : List (String × G))
    (r : Resource)
    (h : findResourceInLocalGraphs env id s = (Outcome.ok (none, g), s1))
    (hs : env.Sync (collectServices order) s1.world = (w1, Except.ok graphs))
    (h2 : findResourceInLocalGraphs env id
      { world := w1, trace := s1.trace ++ fullSyncEvents order } = (Outcome.ok (some r, g2), s3)) :
    RunE_lookup env order false id s = (Outcome.ok (some r, g2), s3) := by
  simp [RunE_lookup, M.bind, h, runFullSync_eq, hs, h2, M.pure]

theorem lookup_retry_exit (env : Env G S W) (order : List (String × S))
    (id : String) (s s1 s3 : St G S W) (g : Option G) (w1 : W) (graphs : List (String × G))
    (e : String)
    (h : findResourceInLocalGraphs env id s = (Outcome.ok (none, g), s1))
    (hs : env.Sync (collectServices order) s1.world = (w1, Except.ok graphs))
    (h2 : findResourceInLocalGraphs env id
      { world := w1, trace := s1.trace ++ fullSyncEvents order } = (Outcome.exited e, s3)) :
    RunE_lookup env order false id s = (Outcome.exited e, s3) := by
  simp [RunE_lookup, M.bind, h, runFullSync_eq, hs, h2]

/-- Whenever the lookup phase falls through to line 54, `resource` and `gph`
are both non-nil. -/
theorem lookup_ok_some (env : Env G S W) (order : List (String × S)) (localFlag : Bool)
    (id : String) (s s1 : St G S W) (resource : Option Resource) (gph : Option G)
    (h : RunE_lookup env order localFlag id s = (Outcome.ok (resource, gph), s1)) :
    ∃ r g, resource = some r ∧ gph = some g := by
  obtain ⟨t, _, hc⟩ := find_cases env id s
  rcases hc with ⟨hf, _⟩ | ⟨r, g, hf⟩ | ⟨e, hf⟩
  · cases localFlag with
    | true => rw [lookup_miss_local env order id s _ _ hf] at h; simp at h
    | false =>
      rcases hs : env.Sync (collectServices order) s.world with ⟨w1, e | graphs⟩
      · rw [lookup_miss_sync_error env order id s _ _ w1 e hf hs] at h; simp at h
      · obtain ⟨t2, _, hc2⟩ := find_cases env id
          { world := w1, trace := (s.trace ++ Event.enterFindResourceInLocalGraphs id :: t) ++
              fullSyncEvents order }
        rcases hc2 with ⟨hf2, _⟩ | ⟨r, g, hf2⟩ | ⟨e, hf2⟩
        · rw [lookup_retry_miss env order id s _ _ _ _ w1 graphs hf hs hf2] at h; simp at h
        · rw [lookup_retry_hit env order id s _ _ _ _ w1 graphs r hf hs hf2] at h
          simp only [Prod.mk.injEq, Outcome.ok.injEq] at h
          exact ⟨r, g, h.1.1.symm, h.1.2.symm⟩
        · rw [lookup_retry_exit env order id s _ _ _ w1 graphs e hf hs hf2] at h; simp at h
  · rw [lookup_hit env order localFlag id s _ r _ hf] at h
    simp only [Prod.mk.injEq, Outcome.ok.injEq] at h
    exact ⟨r, g, h.1.1.symm, h.1.2.symm⟩
  · rw [lookup_exit env order localFlag id s _ e hf] at h; simp at h

theorem RunE_eq (env : Env G S W) (order : List (String × S)) (localFlag : Bool)
    (id : String) (rest : List String) :
    RunE env order localFlag (id :: rest) =
      M.bind (RunE_lookup env order localFlag id) fun x => RunE_rest env localFlag x.1 x.2 := by
  rfl

theorem RunE_rest_emits (env : Env G S W) (localFlag : Bool) (r : Resource) (g : G) :
    Emits (fun e => Event.inSyncStep e = true ∨ Event.inDisplayStep e = true)
      (RunE_rest env localFlag (some r) (some g)) := by
  refine Emits.bind ((RunE_sync_emits env localFlag r).mono fun e h => Or.inl h) fun _ => ?_
  exact Emits.bind ((RunE_display_emits env r g).mono fun e h => Or.inr h) fun _ => Emits.ret _ _

theorem RunE_of_lookup_ok (env : Env G S W) (order : List (String × S)) (localFlag : Bool)
    (id : String) (rest : List String) (s s1 : St G S W) (resource : Option Resource)
    (gph : Option G)
    (h : RunE_lookup env order localFlag id s = (Outcome.ok (resource, gph), s1)) :
    RunE env order localFlag (id :: rest) s = RunE_rest env localFlag resource gph s1 := by
  simp [RunE_eq, M.bind, h]

theorem RunE_of_lookup_returned (env : Env G S W) (order : List (String × S))
    (localFlag : Bool) (id : String) (rest : List String) (s s1 : St G S W)
    (err : Option String)
    (h : RunE_lookup env order localFlag id s = (Outcome.returned err, s1)) :
    RunE env order localFlag (id :: rest) s = (Outcome.returned err, s1) := by
  simp [RunE_eq, M.bind, h]

theorem RunE_of_lookup_exited (env : Env G S W) (order : List (String × S))
    (localFlag : Bool) (id : String) (rest : List String) (s s1 : St G S W) (e : String)
    (h : RunE_lookup env order localFlag id s = (Outcome.exited e, s1)) :
    RunE env order localFlag (id :: rest) s = (Outcome.exited e, s1) := by
  simp [RunE_eq, M.bind, h]

theorem RunE_rest_local (env : Env G S W) (r : Resource) (g : G) (s : St G S W) :
    RunE_rest env true (some r) (some g) s =
      (M.bind (RunE_display env (some r) (some g)) fun _ => ret none) s := by
  simp [RunE_rest, RunE_sync, M.bind, M.pure]

theorem loads_counts (t : List (Event G S)) (h : ∀ e ∈ t, Event.isLoadOrFind e = true) :
    syncCalls t = 0 ∧ fullSyncCalls t = 0 ∧ lookupCalls t = 0 ∧ traversalCalls t = 0 ∧
      displayCalls t = 0 := by
  simp only [syncCalls, fullSyncCalls, lookupCalls, traversalCalls, displayCalls,
    List.countP_eq_zero]
  refine ⟨?_, ?_, ?_, ?_, ?_⟩ <;>
  · intro e he
    have := h e he
    cases e <;> simp_all [Event.isLoadOrFind, Event.isSync, Event.isRunFullSync, Event.isLookup,
      Event.isTraversal, Event.isDisplay]

theorem display_counts (t : List (Event G S)) (h : ∀ e ∈ t, Event.inDisplayStep e = true) :
    syncCalls t = 0 ∧ fullSyncCalls t = 0 ∧ lookupCalls t = 0 := by
  simp only [syncCalls, fullSyncCalls, lookupCalls, List.countP_eq_zero]
  refine ⟨?_, ?_, ?_⟩ <;>
  · intro e he
    have := h e he
    cases e <;> simp_all [Event.inDisplayStep, Event.isSync, Event.isRunFullSync, Event.isLookup]

theorem rest_counts (t : List (Event G S))
    (h : ∀ e ∈ t, Event.inSyncStep e = true ∨ Event.inDisplayStep e = true) :
    fullSyncCalls t = 0 ∧ lookupCalls t = 0 := by
  simp only [fullSyncCalls, lookupCalls, List.countP_eq_zero]
  refine ⟨?_, ?_⟩ <;>
  · intro e he
    have := h e he
    cases e <;> simp_all [Event.inDisplayStep, Event.inSyncStep, Event.isRunFullSync,
      Event.isLookup]

theorem loadEvents_counts (env : Env G S W) (id : String) (w : W) (names : List String) :
    syncCalls (loadEvents env id w names) = 0 ∧ fullSyncCalls (loadEvents env id w names) = 0 ∧
      lookupCalls (loadEvents env id w names) = 0 ∧
      traversalCalls (loadEvents env id w names) = 0 ∧
      displayCalls (loadEvents env id w names) = 0 :=
  loads_counts _ (loadEvents_isLoadOrFind env id w names)

theorem RunE_rest_local_emits (env : Env G S W) (r : Resource) (g : G) :
    Emits (fun e => Event.inDisplayStep e = true) (RunE_rest env true (some r) (some g)) := by
  have h : RunE_rest env true (some r) (some g) =
      M.bind (RunE_display env (some r) (some g)) fun _ => ret none := by
    funext s; exact RunE_rest_local env r g s
  rw [h]
  exact Emits.bind (RunE_display_emits env r g) fun _ => Emits.ret _ _

/-- In local-only mode the command adds no `Sync` call and no `runFullSync`
entry to the trace. -/
theorem RunE_local_trace (env : Env G S W) (order : List (String × S)) (args : List String)
    (s : St G S W) :
    ∃ t, (RunE env order true args s).2.trace = s.trace ++ t ∧ syncCalls t = 0 ∧
      fullSyncCalls t = 0 := by
  cases args with
  | nil => exact ⟨[], by simp [RunE, ret], by simp [syncCalls], by simp [fullSyncCalls]⟩
  | cons id rest =>
    obtain ⟨t, ht, hc⟩ := find_cases env id s
    obtain ⟨hz1, hz2, -⟩ := loads_counts t ht
    simp only [syncCalls, fullSyncCalls] at hz1 hz2
    rcases hc with ⟨hf, _⟩ | ⟨r, g, hf⟩ | ⟨e, hf⟩
    · rw [RunE_of_lookup_returned env order true id rest _ _ none
        (lookup_miss_local env order id _ _ _ hf)]
      refine ⟨Event.enterFindResourceInLocalGraphs id :: t ++ [Event.info (notFoundMsg id)],
        by simp, ?_, ?_⟩
      · simp [syncCalls, List.countP_cons, List.countP_append, Event.isSync, hz1]
      · simp [fullSyncCalls, List.countP_cons, List.countP_append, Event.isRunFullSync, hz2]
    · rw [RunE_of_lookup_ok env order true id rest _ _ _ _
        (lookup_hit env order true id _ _ r _ hf)]
      obtain ⟨_, t2, ht2, hP2⟩ := RunE_rest_local_emits env r g
        { world := s.world, trace := s.trace ++ Event.enterFindResourceInLocalGraphs id :: t }
      obtain ⟨hd1, hd2, -⟩ := display_counts t2 hP2
      simp only [syncCalls, fullSyncCalls] at hd1 hd2
      refine ⟨Event.enterFindResourceInLocalGraphs id :: t ++ t2, by simp [ht2], ?_, ?_⟩
      · simp [syncCalls, List.countP_cons, List.countP_append, Event.isSync, hz1, hd1]
      · simp [fullSyncCalls, List.countP_cons, List.countP_append, Event.isRunFullSync, hz2, hd2]
    · rw [RunE_of_lookup_exited env order true id rest _ _ e
        (lookup_exit env order true id _ _ e hf)]
      refine ⟨Event.enterFindResourceInLocalGraphs id :: t, by simp, ?_, ?_⟩
      · simp [syncCalls, List.countP_cons, Event.isSync, hz1]
      · simp [fullSyncCalls, List.countP_cons, Event.isRunFullSync, hz2]

theorem lookup_step_counts (t : List (Event G S))
    (h : ∀ e ∈ t, Event.inLookupStep e = true) :
    traversalCalls t = 0 ∧ displayCalls t = 0 := by
  simp only [traversalCalls, displayCalls, List.countP_eq_zero]
  refine ⟨?_, ?_⟩ <;>
  · intro e he
    have := h e he
    cases e <;> simp_all [Event.inLookupStep, Event.isTraversal, Event.isDisplay]

theorem RunE_sync_error (env : Env G S W) (r : Resource) (srv : S) (s : St G S W) (w2 : W)
    (e : String) (hg : env.GetServiceForType r.type = Except.ok srv)
    (hs : env.Sync [srv] s.world = (w2, Except.error e)) :
    RunE_sync env false (some r) s =
      (Outcome.exited e, { world := w2, trace := s.trace ++ targetedSyncEvents r.type srv }) := by
  simp [RunE_sync, M.bind, emit, exitOnErr, hg, M.pure, callSync, hs, targetedSyncEvents]

theorem RunE_sync_ok (env : Env G S W) (r : Resource) (srv : S) (s : St G S W) (w2 : W)
    (graphs : List (String × G)) (hg : env.GetServiceForType r.type = Except.ok srv)
    (hs : env.Sync [srv] s.world = (w2, Except.ok graphs)) :
    RunE_sync env false (some r) s =
      (Outcome.ok (), { world := w2, trace := s.trace ++ targetedSyncEvents r.type srv }) := by
  simp [RunE_sync, M.bind, emit, exitOnErr, hg, M.pure, callSync, hs, targetedSyncEvents]

/-- After a first miss with local-only mode off: `runFullSync` is entered
exactly once, and when its `Sync` call succeeds the lookup runs exactly
twice. -/
theorem miss_counts (env : Env G S W) (order : List (String × S)) (id : String)
    (rest : List String) (w : W) (hmiss : Misses env id w) :
    fullSyncCalls (run (RunE env order false (id :: rest)) w).2.trace = 1 ∧
    (∀ w1 graphs, env.Sync (collectServices order) w = (w1, Except.ok graphs) →
      lookupCalls (run (RunE env order false (id :: rest)) w).2.trace = 2) := by
  have hf := find_miss env id { world := w, trace := [] } hmiss
  obtain ⟨-, c2, c3, -, -⟩ := loadEvents_counts env id w env.ServiceNames
  simp only [fullSyncCalls, lookupCalls] at c2 c3
  rcases hs : env.Sync (collectServices order) w with ⟨w1, e | graphs⟩
  · have hl := lookup_miss_sync_error env order id _ _ _ w1 e hf hs
    rw [run, RunE_of_lookup_exited env order false id rest _ _ e hl]
    constructor
    · simp [fullSyncCalls, fullSyncEvents, List.countP_cons, List.countP_append,
        Event.isRunFullSync, c2]
    · intro w1' graphs' h
      simp at h
  · obtain ⟨t2, ht2, hc⟩ := find_cases env id
      { world := w1,
        trace := ([] ++ Event.enterFindResourceInLocalGraphs id ::
          loadEvents env id w env.ServiceNames) ++ fullSyncEvents order }
    obtain ⟨-, d2, d3, -, -⟩ := loads_counts t2 ht2
    simp only [fullSyncCalls, lookupCalls] at d2 d3
    rcases hc with ⟨hf2, _⟩ | ⟨r, g, hf2⟩ | ⟨e, hf2⟩
    · have hl := lookup_retry_miss env order id _ _ _ _ _ w1 graphs hf hs hf2
      rw [run, RunE_of_lookup_returned env order false id rest _ _ none hl]
      constructor
      · simp [fullSyncCalls, fullSyncEvents, List.countP_cons, List.countP_append,
          Event.isRunFullSync, c2, d2]
      · intro _ _ _
        simp [lookupCalls, fullSyncEvents, List.countP_cons, List.countP_append,
          Event.isLookup, c3, d3]
    · have hl := lookup_retry_hit env order id _ _ _ _ _ w1 graphs r hf hs hf2
      rw [run, RunE_of_lookup_ok env order false id rest _ _ _ _ hl]
      obtain ⟨_, t3, ht3, hP3⟩ := RunE_rest_emits env false r g
        { world := w1,
          trace := (([] ++ Event.enterFindResourceInLocalGraphs id ::
            loadEvents env id w env.ServiceNames) ++ fullSyncEvents order) ++
            Event.enterFindResourceInLocalGraphs id :: t2 }
      obtain ⟨e2, e3⟩ := rest_counts t3 hP3
      simp only [fullSyncCalls, lookupCalls] at e2 e3
      rw [ht3]
      constructor
      · simp [fullSyncCalls, fullSyncEvents, List.countP_cons, List.countP_append,
          Event.isRunFullSync, c2, d2, e2]
      · intro _ _ _
        simp [lookupCalls, fullSyncEvents, List.countP_cons, List.countP_append,
          Event.isLookup, c3, d3, e3]
    · have hl := lookup_retry_exit env order id _ _ _ _ w1 graphs e hf hs hf2
      rw [run, RunE_of_lookup_exited env order false id rest _ _ e hl]
      constructor
      · simp [fullSyncCalls, fullSyncEvents, List.countP_cons, List.countP_append,
          Event.isRunFullSync, c2, d2]
      · intro _ _ _
        simp [lookupCalls, fullSyncEvents, List.countP_cons, List.countP_append,
          Event.isLookup, c3, d3]

/-- After a first miss, a successful full sync and a second miss, the command
returns nil with exactly this trace. -/
theorem miss_miss_run (env : Env G S W) (order : List (String × S)) (id : String)
    (rest : List String) (w w1 : W) (graphs : List (String × G)) (hmiss : Misses env id w)
    (hs : env.Sync (collectServices order) w = (w1, Except.ok graphs))
    (hmiss2 : Misses env id w1) :
    run (RunE env order false (id :: rest)) w =
      (Outcome.returned none,
        { world := w1,
          trace := Event.enterFindResourceInLocalGraphs id ::
            loadEvents env id w env.ServiceNames ++ fullSyncEvents order ++
            Event.enterFindResourceInLocalGraphs id ::
            loadEvents env id w1 env.ServiceNames ++ [Event.info (notFoundMsg id)] }) := by
  have hf := find_miss env id { world := w, trace := [] } hmiss
  have hf2 := find_miss env id
    { world := w1,
      trace := ([] ++ Event.enterFindResourceInLocalGraphs id ::
        loadEvents env id w env.ServiceNames) ++ fullSyncEvents order } hmiss2
  have hl := lookup_retry_miss env order id _ _ _ _ _ w1 graphs hf hs hf2
  rw [run, RunE_of_lookup_returned env order false id rest _ _ none hl]
  simp

/-- The calls of the lookup phase: every `Sync` call in it is the one of a
`runFullSync`, there is at most one, and nothing is displayed or traversed. -/
theorem lookup_trace_counts (env : Env G S W) (order : List (String × S)) (localFlag : Bool)
    (id : String) (s : St G S W) :
    ∃ t, (RunE_lookup env order localFlag id s).2.trace = s.trace ++ t ∧
      syncCalls t = fullSyncCalls t ∧ fullSyncCalls t ≤ 1 ∧
      traversalCalls t = 0 ∧ displayCalls t = 0 := by
  obtain ⟨_, t, ht, hP⟩ := RunE_lookup_emits env order localFlag id s
  obtain ⟨h4, h5⟩ := lookup_step_counts t hP
  refine ⟨t, ht, ?_, ?_, h4, h5⟩
  all_goals
    obtain ⟨t1, ht1, hc⟩ := find_cases env id s
    obtain ⟨c1, c2, -, -, -⟩ := loads_counts t1 ht1
    simp only [syncCalls, fullSyncCalls] at c1 c2
    rcases hc with ⟨hf, _⟩ | ⟨r, g, hf⟩ | ⟨e, hf⟩
    · cases localFlag with
      | true =>
        rw [lookup_miss_local env order id s _ _ hf] at ht
        simp only [List.append_assoc, List.append_cancel_left_eq] at ht
        subst ht
        simp [syncCalls, fullSyncCalls, List.countP_cons, List.countP_append, Event.isSync,
          Event.isRunFullSync, c1, c2]
      | false =>
        rcases hs : env.Sync (collectServices order) s.world with ⟨w1, e | graphs⟩
        · rw [lookup_miss_sync_error env order id s _ _ w1 e hf hs] at ht
          simp only [List.append_assoc, List.append_cancel_left_eq] at ht
          subst ht
          simp [syncCalls, fullSyncCalls, fullSyncEvents, List.countP_cons,
            List.countP_append, Event.isSync, Event.isRunFullSync, c1, c2]
        · obtain ⟨t2, ht2, hc2⟩ := find_cases env id
            { world := w1, trace := (s.trace ++ Event.enterFindResourceInLocalGraphs id :: t1) ++
                fullSyncEvents order }
          obtain ⟨d1, d2, -, -, -⟩ := loads_counts t2 ht2
          simp only [syncCalls, fullSyncCalls] at d1 d2
          rcases hc2 with ⟨hf2, _⟩ | ⟨r, g, hf2⟩ | ⟨e, hf2⟩
          · rw [lookup_retry_miss env order id s _ _ _ _ w1 graphs hf hs hf2] at ht
            simp only [List.append_assoc, List.append_cancel_left_eq] at ht
            subst ht
            simp [syncCalls, fullSyncCalls, fullSyncEvents, List.countP_cons,
              List.countP_append, Event.isSync, Event.isRunFullSync, c1, c2, d1, d2]
          · rw [lookup_retry_hit env order id s _ _ _ _ w1 graphs r hf hs hf2] at ht
            simp only [List.append_assoc, List.append_cancel_left_eq] at ht
            subst ht
            simp [syncCalls, fullSyncCalls, fullSyncEvents, List.countP_cons,
              List.countP_append, Event.isSync, Event.isRunFullSync, c1, c2, d1, d2]
          · rw [lookup_retry_exit env order id s _ _ _ w1 graphs e hf hs hf2] at ht
            simp only [List.append_assoc, List.append_cancel_left_eq] at ht
            subst ht
            simp [syncCalls, fullSyncCalls, fullSyncEvents, List.countP_cons,
              List.countP_append, Event.isSync, Event.isRunFullSync, c1, c2, d1, d2]
    · rw [lookup_hit env order localFlag id s _ r _ hf] at ht
      simp only [List.append_cancel_left_eq] at ht
      subst ht
      simp [syncCalls, fullSyncCalls, List.countP_cons, Event.isSync, Event.isRunFullSync,
        c1, c2]
    · rw [lookup_exit env order localFlag id s _ e hf] at ht
      simp only [List.append_cancel_left_eq] at ht
      subst ht
      simp [syncCalls, fullSyncCalls, List.countP_cons, Event.isSync, Event.isRunFullSync,
        c1, c2]

theorem RunE_sync_noservice (env : Env G S W) (r : Resource) (s : St G S W) (e : String)
    (hg : env.GetServiceForType r.type = Except.error e) :
    RunE_sync env false (some r) s =
      (Outcome.exited e,
        { world := s.world, trace := s.trace ++ [Event.getServiceForType r.type] }) := by
  simp [RunE_sync, M.bind, emit, exitOnErr, hg]

/-- The trace of a run whose lookup phase found `r` and whose
`GetServiceForType` call answered `srv`. -/
theorem targeted_resync_trace (env : Env G S W) (order : List (String × S))
    (id : String) (rest : List String) (w : W) (r : Resource) (g : G) (s1 : St G S W) (srv : S)
    (hl : run (RunE_lookup env order false id) w = (Outcome.ok (some r, some g), s1))
    (hg : env.GetServiceForType r.type = Except.ok srv) :
    ∃ post,
      (run (RunE env order false (id :: rest)) w).2.trace =
        s1.trace ++
          [Event.getServiceForType r.type,
            Event.verbosef ("syncing service for " ++ r.type ++ " type"), Event.sync [srv]] ++
          post ∧
      syncCalls post = 0 ∧ fullSyncCalls post = 0 ∧
      syncCalls s1.trace = fullSyncCalls s1.trace ∧ fullSyncCalls s1.trace ≤ 1 ∧
      traversalCalls (s1.trace ++
          [Event.getServiceForType r.type,
            Event.verbosef ("syncing service for " ++ r.type ++ " type"), Event.sync [srv]]) = 0 ∧
      displayCalls (s1.trace ++
          [Event.getServiceForType r.type,
            Event.verbosef ("syncing service for " ++ r.type ++ " type"), Event.sync [srv]]) = 0 ∧
      syncCalls (run (RunE env order false (id :: rest)) w).2.trace =
        fullSyncCalls (run (RunE env order false (id :: rest)) w).2.trace + 1 := by
  obtain ⟨t, ht, k1, k2, k3, k4⟩ := lookup_trace_counts env order false id { world := w, trace := [] }
  simp only [run] at hl
  rw [hl] at ht
  simp only [List.nil_append] at ht
  subst ht
  have hrun := RunE_of_lookup_ok env order false id rest _ _ _ _ hl
  simp only [syncCalls, fullSyncCalls, traversalCalls, displayCalls] at k1 k2 k3 k4
  rcases hs : env.Sync [srv] s1.world with ⟨w2, e | graphs⟩
  · have hsync := RunE_sync_error env r srv s1 w2 e hg hs
    refine ⟨[], ?_, by simp [syncCalls], by simp [fullSyncCalls], k1, k2, ?_, ?_, ?_⟩
    · simp [run, hrun, RunE_rest, M.bind, hsync, targetedSyncEvents]
    · simp [traversalCalls, List.countP_cons, List.countP_append, Event.isTraversal, k3]
    · simp [displayCalls, List.countP_cons, List.countP_append, Event.isDisplay, k4]
    · simp [run, hrun, RunE_rest, M.bind, hsync, targetedSyncEvents, syncCalls, fullSyncCalls,
        List.countP_cons, List.countP_append, Event.isSync, Event.isRunFullSync, k1]
  · have hsync := RunE_sync_ok env r srv s1 w2 graphs hg hs
    obtain ⟨_, t3, ht3, hP3⟩ :=
      (Emits.bind (RunE_display_emits env r g) fun _ => Emits.ret _ none :
        Emits (fun e => Event.inDisplayStep e = true)
          (M.bind (RunE_display env (some r) (some g)) fun _ => (ret none : M G S W Unit)))
        { world := w2, trace := s1.trace ++ targetedSyncEvents r.type srv }
    obtain ⟨e1, e2, -⟩ := display_counts t3 hP3
    simp only [syncCalls, fullSyncCalls] at e1 e2
    have hfinal : (run (RunE env order false (id :: rest)) w).2.trace =
        s1.trace ++ targetedSyncEvents r.type srv ++ t3 := by
      simp only [run, hrun, RunE_rest]
      simp only [M.bind, hsync]
      exact ht3
    refine ⟨t3, ?_, by simpa [syncCalls] using e1, by simpa [fullSyncCalls] using e2, k1, k2,
      ?_, ?_, ?_⟩
    · simpa [targetedSyncEvents] using hfinal
    · simp [traversalCalls, List.countP_cons, List.countP_append, Event.isTraversal, k3]
    · simp [displayCalls, List.countP_cons, List.countP_append, Event.isDisplay, k4]
    · rw [hfinal]
      simp [targetedSyncEvents, syncCalls, fullSyncCalls, List.countP_cons, List.countP_append,
        Event.isSync, Event.isRunFullSync, k1, e1, e2]

/-! ## The claims -/

/-- C5: `findResourceInLocalGraphs(id)` is a first-match search in the order of
`aws.ServiceNames`.  If every service before `name` answers `(nil, nil)` and
the graph of `name` holds `id`, the result is that resource paired with the
graph of `name`, and the calls made are exactly the loads and finds of the
services up to `name`: later services are not consulted.  The result is
`(nil, nil)` exactly when every service answers `(nil, nil)`. -/
theorem C5_first_match_in_service_order (env : Env G S W) (id : String) (w : W) :
    (∀ (pre : List String) (name : String) (post : List String) (r : Resource),
      env.ServiceNames = pre ++ name :: post →
      (∀ n ∈ pre, env.FindResource (env.LoadCurrentLocalGraph w n) id = Except.ok none) →
      env.FindResource (env.LoadCurrentLocalGraph w name) id = Except.ok (some r) →
      run (findResourceInLocalGraphs env id) w =
        (Outcome.ok (some r, some (env.LoadCurrentLocalGraph w name)),
          { world := w,
            trace := Event.enterFindResourceInLocalGraphs id ::
              loadEvents env id w (pre ++ [name]) })) ∧
    ((run (findResourceInLocalGraphs env id) w).1 = Outcome.ok (none, none) ↔ Misses env id w) := by
  constructor
  · intro pre name post r hnames hpre hhit
    have h := findLoop_hit env id name post r pre
      { world := w, trace := [Event.enterFindResourceInLocalGraphs id] } hpre hhit
    simp [run, find_unfold, hnames, h]
  · constructor
    · intro h
      rcases find_outcome env id { world := w, trace := [] } with ⟨_, h2⟩ | ⟨r, n, _, _, h2⟩ |
        ⟨e, n, _, _, h2⟩
      · exact h2
      · simp [run, h2] at h
      · simp [run, h2] at h
    · intro h
      simp [run, find_miss env id { world := w, trace := [] } h]

/-- C5 at the demo installation: `i-1` is found in `infra`, the first
service, and `access` is not loaded. -/
theorem C5_first_match_in_service_order_witness :
    run (findResourceInLocalGraphs demoEnv "i-1") 0 =
      (Outcome.ok (some demoI1, some ("infra", 0)),
        { world := 0,
          trace := [Event.enterFindResourceInLocalGraphs "i-1",
            Event.loadCurrentLocalGraph "infra", Event.findResource ("infra", 0) "i-1"] }) :=
  (C5_first_match_in_service_order demoEnv "i-1" 0).1 [] "infra" ["access"] demoI1 rfl
    (by simp) (by simp [demoEnv])

/-- C6: whatever order ranging over the map `cloud.ServiceRegistry` delivers
its entries in, `runFullSync` makes a single `Sync` call, and the services
passed are a permutation of the registry's values. -/
theorem C6_full_sync_covers_registry (env : Env G S W) (order : List (String × S)) (w : W)
    (hrange : order.Perm env.ServiceRegistry) :
    ∃ services : List S,
      services.Perm (env.ServiceRegistry.map Prod.snd) ∧
      (run (runFullSync env order) w).2.trace =
        [Event.enterRunFullSync, Event.info "cannot resolve resource - running full sync",
          Event.sync services] ∧
      syncCalls (run (runFullSync env order) w).2.trace = 1 := by
  refine ⟨order.map Prod.snd, hrange.map Prod.snd, ?_, ?_⟩
  · simp only [run, runFullSync, bind_eq, M.bind, emit, callSync, collectServices_eq]
    rcases env.Sync (order.map Prod.snd) w with ⟨w1, e | g⟩ <;> simp
  · simp only [run, runFullSync, bind_eq, M.bind, emit, callSync, collectServices_eq]
    rcases env.Sync (order.map Prod.snd) w with ⟨w1, e | g⟩ <;>
      simp [syncCalls, Event.isSync]

/-- C6 at the demo installation, with the registry ranged over in reverse. -/
theorem C6_full_sync_covers_registry_witness :
    ∃ services : List String,
      services.Perm (demoEnv.ServiceRegistry.map Prod.snd) ∧
      (run (runFullSync demoEnv [("access", "access"), ("infra", "infra")]) 0).2.trace =
        [Event.enterRunFullSync, Event.info "cannot resolve resource - running full sync",
          Event.sync services] ∧
      syncCalls (run (runFullSync demoEnv [("access", "access"), ("infra", "infra")]) 0).2.trace
        = 1 :=
  C6_full_sync_covers_registry demoEnv [("access", "access"), ("infra", "infra")] 0
    (List.Perm.swap _ _ _)

/-- C8: the root is never printed by `printWithTabs` and never collected by
`collectFn`.  For every root and every sequence of delivered pairs, no
collected resource has the root's type and id, and the lines printed are those
of a sub-sequence of the delivered pairs none of which is the root. -/
theorem C8_traversal_excludes_root (root : Resource) (visits : List (Resource × Int))
    (s : St G S W) :
    (∀ r ∈ visitCollecting root [] visits, ¬ (r.type = root.type ∧ r.id = root.id)) ∧
    (∃ kept : List (Resource × Int),
      kept.Sublist visits ∧
      (∀ p ∈ kept, ¬ (p.1.type = root.type ∧ p.1.id = root.id)) ∧
      visitPrinting root visits s =
        (Outcome.ok (),
          { s with trace := s.trace ++ kept.map (fun p => Event.stdout (tabbedLine p.1 p.2)) })) := by
  constructor
  · intro r hr
    rw [visitCollecting_eq] at hr
    simp only [List.nil_append, List.mem_filter, decide_eq_true_eq] at hr
    intro h
    exact hr.2 h.2.symm
  · refine ⟨visits.filter (fun p => decide (root.id ≠ p.1.id)), List.filter_sublist _, ?_,
      visitPrinting_eq root visits s⟩
    intro p hp
    simp only [List.mem_filter, decide_eq_true_eq] at hp
    intro h
    exact hp.2 h.2.symm

/-- C9, as stated, fails: with root `instance[i-1]` and the single visited
resource `subnet[i-1]`, a distinct node, nothing is collected, whereas removing
only the root node keeps `subnet[i-1]`. -/
theorem C9_same_id_other_type_dropped :
    visitCollecting demoI1 [] [(demoSubnetI1, 1)] = [] ∧
    withoutRootNode demoI1 [(demoSubnetI1, 1)] = [demoSubnetI1] ∧
    visitCollecting demoI1 [] [(demoSubnetI1, 1)] ≠ withoutRootNode demoI1 [(demoSubnetI1, 1)] := by
  decide

/-- C9, amended: the siblings collected by `collectFn` are the visited
resources, in visit order, with every resource whose id equals the root's id
removed, whatever its type; `printWithTabs` prints the lines of the visited
pairs filtered the same way. -/
theorem C9_only_same_id_excluded (root : Resource) (visits : List (Resource × Int))
    (s : St G S W) :
    visitCollecting root [] visits =
      (visits.map Prod.fst).filter (fun r => decide (root.id ≠ r.id)) ∧
    visitPrinting root visits s =
      (Outcome.ok (),
        { s with trace := (s.trace ++
            (visits.filter (fun p => decide (root.id ≠ p.1.id))).map
              (fun p => Event.stdout (tabbedLine p.1 p.2))) }) := by
  refine ⟨?_, visitPrinting_eq root visits s⟩
  rw [visitCollecting_eq]
  simp

/-- C10: the found resource is never nil where it is used.  For every id,
every value of `localFlag`, every range order and every world, if the lookup
phase falls through to the targeted-sync step with the values `resource` and
`gph`, both are non-nil (so the guard `resource != nil` before the display
holds); and the command never calls a method through a nil pointer. -/
theorem C10_resource_non_nil_where_used (env : Env G S W) (order : List (String × S))
    (localFlag : Bool) (id : String) (rest : List String) (w : W) :
    (∀ (resource : Option Resource) (gph : Option G) (s1 : St G S W),
      run (RunE_lookup env order localFlag id) w = (Outcome.ok (resource, gph), s1) →
      resource.isSome = true ∧ gph.isSome = true) ∧
    (run (RunE env order localFlag (id :: rest)) w).1 ≠ Outcome.nilDeref := by
  constructor
  · intro resource gph s1 h
    obtain ⟨r, g, rfl, rfl⟩ := lookup_ok_some env order localFlag id _ s1 resource gph h
    simp
  · simp only [run, RunE_eq, M.bind]
    rcases hl : RunE_lookup env order localFlag id { world := w, trace := [] } with ⟨o, s1⟩
    cases o with
    | ok a =>
      obtain ⟨resource, gph⟩ := a
      obtain ⟨r, g, rfl, rfl⟩ := lookup_ok_some env order localFlag id _ s1 resource gph hl
      exact (RunE_rest_emits env localFlag r g s1).1
    | returned e => simp
    | exited e => simp
    | nilDeref =>
      have := (RunE_lookup_emits env order localFlag id { world := w, trace := [] }).1
      rw [hl] at this
      exact absurd rfl this

/-- C10 at the demo installation: looking up `i-2` misses, the full sync
brings it in, and both `resource` and `gph` are set at the targeted-sync
step. -/
theorem C10_resource_non_nil_where_used_witness :
    (some demoI2).isSome = true ∧ (some (("infra", 1) : String × Nat)).isSome = true :=
  (C10_resource_non_nil_where_used demoEnv demoEnv.ServiceRegistry false "i-2" [] 0).1
    (some demoI2) (some ("infra", 1))
    { world := 1,
      trace := [Event.enterFindResourceInLocalGraphs "i-2",
        Event.loadCurrentLocalGraph "infra", Event.findResource ("infra", 0) "i-2",
        Event.loadCurrentLocalGraph "access", Event.findResource ("access", 0) "i-2",
        Event.enterRunFullSync, Event.info "cannot resolve resource - running full sync",
        Event.sync ["infra", "access"],
        Event.enterFindResourceInLocalGraphs "i-2",
        Event.loadCurrentLocalGraph "infra", Event.findResource ("infra", 1) "i-2"] }
    (by decide)

/-- C2: local-only mode never syncs.  With `localFlag` set, for every
argument list, range order and world, the command makes no `Sync` call and
never enters `runFullSync`; if no local graph holds the id it logs not-found
and returns nil after the one lookup; and if the lookup finds a resource the
command goes straight to displaying that resource on the graph it was found
in. -/
theorem C2_local_only_never_syncs (env : Env G S W) (order : List (String × S))
    (args : List String) (w : W) :
    syncCalls (run (RunE env order true args) w).2.trace = 0 ∧
    fullSyncCalls (run (RunE env order true args) w).2.trace = 0 ∧
    (∀ id rest, args = id :: rest → Misses env id w →
      run (RunE env order true args) w =
        (Outcome.returned none,
          { world := w,
            trace := Event.enterFindResourceInLocalGraphs id ::
              loadEvents env id w env.ServiceNames ++ [Event.info (notFoundMsg id)] })) ∧
    (∀ id rest r g s1, args = id :: rest →
      run (findResourceInLocalGraphs env id) w = (Outcome.ok (some r, some g), s1) →
      run (RunE env order true args) w =
        (M.bind (RunE_display env (some r) (some g)) fun _ => ret none) s1) := by
  obtain ⟨t, ht, hs, hfs⟩ := RunE_local_trace env order args { world := w, trace := [] }
  refine ⟨?_, ?_, ?_, ?_⟩
  · simp only [run, ht, List.nil_append, hs]
  · simp only [run, ht, List.nil_append, hfs]
  · intro id rest hargs hmiss
    subst hargs
    have hf := find_miss env id { world := w, trace := [] } hmiss
    rw [run, RunE_of_lookup_returned env order true id rest _ _ none
      (lookup_miss_local env order id _ _ _ hf)]
    simp
  · intro id rest r g s1 hargs hf
    subst hargs
    rw [run, RunE_of_lookup_ok env order true id rest _ _ _ _
      (lookup_hit env order true id _ _ r _ hf), RunE_rest_local]

/-- C2 at the demo installation: `i-2` is in no local graph of generation 0;
in local-only mode the command reports not-found without syncing. -/
theorem C2_local_only_never_syncs_witness :
    run (RunE demoEnv demoEnv.ServiceRegistry true ["i-2"]) 0 =
      (Outcome.returned none,
        { world := 0,
          trace := Event.enterFindResourceInLocalGraphs "i-2" ::
            loadEvents demoEnv "i-2" 0 demoEnv.ServiceNames ++
              [Event.info (notFoundMsg "i-2")] }) :=
  (C2_local_only_never_syncs demoEnv demoEnv.ServiceRegistry ["i-2"] 0).2.2.1 "i-2" [] rfl
    (by intro n hn; simp [demoEnv] at hn ⊢)

/-- C1: cache-miss policy.  With local-only mode off, if no local graph holds
the id, the command enters `runFullSync` exactly once; when that sync
succeeds the lookup is run exactly twice in all; and if the retry also finds
nothing the command logs not-found and returns nil, having made one `Sync`
call (the full sync, between the two lookups), two lookups, no relationship
query and no display. -/
theorem C1_cache_miss_policy (env : Env G S W) (order : List (String × S)) (id : String)
    (rest : List String) (w : W) (hmiss : Misses env id w) :
    fullSyncCalls (run (RunE env order false (id :: rest)) w).2.trace = 1 ∧
    (∀ w1 graphs, env.Sync (collectServices order) w = (w1, Except.ok graphs) →
      lookupCalls (run (RunE env order false (id :: rest)) w).2.trace = 2 ∧
      (Misses env id w1 →
        run (RunE env order false (id :: rest)) w =
          (Outcome.returned none,
            { world := w1,
              trace := Event.enterFindResourceInLocalGraphs id ::
                loadEvents env id w env.ServiceNames ++ fullSyncEvents order ++
                Event.enterFindResourceInLocalGraphs id ::
                loadEvents env id w1 env.ServiceNames ++ [Event.info (notFoundMsg id)] }) ∧
        syncCalls (run (RunE env order false (id :: rest)) w).2.trace = 1 ∧
        traversalCalls (run (RunE env order false (id :: rest)) w).2.trace = 0 ∧
        displayCalls (run (RunE env order false (id :: rest)) w).2.trace = 0)) := by
  obtain ⟨hA, hB⟩ := miss_counts env order id rest w hmiss
  refine ⟨hA, fun w1 graphs hs => ⟨hB w1 graphs hs, fun hmiss2 => ?_⟩⟩
  have hrun := miss_miss_run env order id rest w w1 graphs hmiss hs hmiss2
  obtain ⟨c1, -, -, c4, c5⟩ := loadEvents_counts env id w env.ServiceNames
  obtain ⟨d1, -, -, d4, d5⟩ := loadEvents_counts env id w1 env.ServiceNames
  simp only [syncCalls, traversalCalls, displayCalls] at c1 c4 c5 d1 d4 d5
  refine ⟨hrun, ?_, ?_, ?_⟩
  · rw [hrun]
    simp [syncCalls, fullSyncEvents, List.countP_cons, List.countP_append, Event.isSync, c1, d1]
  · rw [hrun]
    simp [traversalCalls, fullSyncEvents, List.countP_cons, List.countP_append,
      Event.isTraversal, c4, d4]
  · rw [hrun]
    simp [displayCalls, fullSyncEvents, List.countP_cons, List.countP_append,
      Event.isDisplay, c5, d5]

/-- C1 at the demo installation: `i-404` is in no graph before or after the
full sync. -/
theorem C1_cache_miss_policy_witness :
    fullSyncCalls (run (RunE demoEnv demoEnv.ServiceRegistry false ["i-404"]) 0).2.trace = 1 ∧
    lookupCalls (run (RunE demoEnv demoEnv.ServiceRegistry false ["i-404"]) 0).2.trace = 2 ∧
    (run (RunE demoEnv demoEnv.ServiceRegistry false ["i-404"]) 0).1 = Outcome.returned none ∧
    syncCalls (run (RunE demoEnv demoEnv.ServiceRegistry false ["i-404"]) 0).2.trace = 1 ∧
    traversalCalls (run (RunE demoEnv demoEnv.ServiceRegistry false ["i-404"]) 0).2.trace = 0 :=
  have hmiss0 : Misses demoEnv "i-404" 0 := by intro n hn; simp [demoEnv] at hn ⊢
  have hmiss1 : Misses demoEnv "i-404" 1 := by intro n hn; simp [demoEnv] at hn ⊢
  have h := C1_cache_miss_policy demoEnv demoEnv.ServiceRegistry "i-404" [] 0 hmiss0
  have h2 := h.2 1 [("infra", ("infra", 1)), ("access", ("access", 1))] rfl
  have h3 := h2.2 hmiss1
  ⟨h.1, h2.1, by rw [h3.1], h3.2.1, h3.2.2.1⟩

set_option maxHeartbeats 1000000 in
/-- C4, as stated, fails on the retry path.  With a registry of the one
service `infra`, showing `i-2` from generation 0 misses, runs the full sync,
finds `i-2` on the retry, and then runs the targeted resync: the command calls
`Sync` twice, each time with exactly one service, not exactly once. -/
theorem C4_retry_path_two_sync_calls :
    (run (RunE_lookup demoEnvOne demoEnvOne.ServiceRegistry false "i-2") 0).1 =
      Outcome.ok (some demoI2, some ("infra", 1)) ∧
    demoEnvOne.GetServiceForType demoI2.type = Except.ok "infra" ∧
    (run (RunE demoEnvOne demoEnvOne.ServiceRegistry false ["i-2"]) 0).2.trace.filter
        Event.isSync = [Event.sync ["infra"], Event.sync ["infra"]] ∧
    syncCalls (run (RunE demoEnvOne demoEnvOne.ServiceRegistry false ["i-2"]) 0).2.trace = 2 ∧
    syncCalls (run (RunE demoEnvOne demoEnvOne.ServiceRegistry false ["i-2"]) 0).2.trace ≠ 1 := by
  have h2 : syncCalls
      (run (RunE demoEnvOne demoEnvOne.ServiceRegistry false ["i-2"]) 0).2.trace = 2 := by
    decide
  refine ⟨by decide, rfl, by decide, h2, ?_⟩
  rw [h2]
  decide

/-- C4, amended: targeted resync on a hit.  With local-only mode off, whenever
the lookup phase ends with a found resource `r` (on the first lookup or on the
retry): if `cloud.GetServiceForType` returns an error for its type the command
ends there with that error and no targeted `Sync`; if it returns `srv`, the
trace of the command is the trace of the lookup phase, then the call
`GetServiceForType(r.Type())`, the log line and the call `Sync(srv)` with that
one service, then a remainder without any `Sync` call.  Nothing is displayed
or traversed up to and including that `Sync` call.  The only other `Sync`
call of the run is the one of the full sync: the run makes exactly one `Sync`
call when the first lookup found the resource and exactly two when it was
found on the retry. -/
theorem C4_targeted_resync_after_lookup (env : Env G S W) (order : List (String × S))
    (id : String) (rest : List String) (w : W) (r : Resource) (g : G) (s1 : St G S W)
    (hl : run (RunE_lookup env order false id) w = (Outcome.ok (some r, some g), s1)) :
    (∀ e, env.GetServiceForType r.type = Except.error e →
      run (RunE env order false (id :: rest)) w =
        (Outcome.exited e,
          { world := s1.world, trace := s1.trace ++ [Event.getServiceForType r.type] })) ∧
    (∀ srv, env.GetServiceForType r.type = Except.ok srv →
      (∃ post,
        (run (RunE env order false (id :: rest)) w).2.trace =
          s1.trace ++
            [Event.getServiceForType r.type,
              Event.verbosef ("syncing service for " ++ r.type ++ " type"),
              Event.sync [srv]] ++
            post ∧
        syncCalls post = 0 ∧
        traversalCalls (s1.trace ++
            [Event.getServiceForType r.type,
              Event.verbosef ("syncing service for " ++ r.type ++ " type"),
              Event.sync [srv]]) = 0 ∧
        displayCalls (s1.trace ++
            [Event.getServiceForType r.type,
              Event.verbosef ("syncing service for " ++ r.type ++ " type"),
              Event.sync [srv]]) = 0) ∧
      syncCalls s1.trace = fullSyncCalls s1.trace ∧ fullSyncCalls s1.trace ≤ 1 ∧
      syncCalls (run (RunE env order false (id :: rest)) w).2.trace =
        fullSyncCalls s1.trace + 1 ∧
      ((run (findResourceInLocalGraphs env id) w).1 = Outcome.ok (some r, some g) →
        syncCalls (run (RunE env order false (id :: rest)) w).2.trace = 1) ∧
      (Misses env id w →
        syncCalls (run (RunE env order false (id :: rest)) w).2.trace = 2)) := by
  constructor
  · intro e hg
    simp only [run] at hl
    rw [run, RunE_of_lookup_ok env order false id rest _ _ _ _ hl]
    simp [RunE_rest, M.bind, RunE_sync_noservice env r s1 e hg]
  · intro srv hg
    obtain ⟨post, htr, hp1, hp2, k1, k2, k3, k4, hfin⟩ :=
      targeted_resync_trace env order id rest w r g s1 srv hl hg
    have hfull : fullSyncCalls (run (RunE env order false (id :: rest)) w).2.trace =
        fullSyncCalls s1.trace := by
      rw [htr]
      simp only [fullSyncCalls] at hp2 ⊢
      simp [List.countP_cons, List.countP_append, Event.isRunFullSync, hp2]
    have hcount : syncCalls (run (RunE env order false (id :: rest)) w).2.trace =
        fullSyncCalls s1.trace + 1 := by rw [hfin, hfull]
    refine ⟨⟨post, htr, hp1, k3, k4⟩, k1, k2, hcount, ?_, ?_⟩
    · intro hfirst
      obtain ⟨t, ht, hP⟩ := find_state env id { world := w, trace := [] }
      have hfe : findResourceInLocalGraphs env id { world := w, trace := [] } =
          (Outcome.ok (some r, some g),
            (findResourceInLocalGraphs env id { world := w, trace := [] }).2) :=
        Prod.ext hfirst rfl
      have hl2 := lookup_hit env order false id _ _ r _ hfe
      simp only [run] at hl
      rw [hl2] at hl
      have hs1 : s1 = (findResourceInLocalGraphs env id { world := w, trace := [] }).2 := by
        simp only [Prod.mk.injEq] at hl
        exact hl.2.symm
      obtain ⟨-, c2, -, -, -⟩ := loads_counts t hP
      simp only [fullSyncCalls] at c2
      rw [hcount, hs1, ht]
      simp [fullSyncCalls, List.countP_cons, Event.isRunFullSync, c2]
    · intro hmiss
      have hone := (miss_counts env order id rest w hmiss).1
      rw [hfull] at hone
      rw [hcount, hone]

/-- C4 amended, at the demo installation on the retry path: `i-2` is missed
in generation 0, found after the full sync, and the targeted `Sync` on the one
service `infra` follows; the run makes two `Sync` calls. -/
theorem C4_targeted_resync_after_lookup_witness :
    (∃ post,
      (run (RunE demoEnv demoEnv.ServiceRegistry false ["i-2"]) 0).2.trace =
        [Event.enterFindResourceInLocalGraphs "i-2",
          Event.loadCurrentLocalGraph "infra", Event.findResource ("infra", 0) "i-2",
          Event.loadCurrentLocalGraph "access", Event.findResource ("access", 0) "i-2",
          Event.enterRunFullSync, Event.info "cannot resolve resource - running full sync",
          Event.sync ["infra", "access"],
          Event.enterFindResourceInLocalGraphs "i-2",
          Event.loadCurrentLocalGraph "infra", Event.findResource ("infra", 1) "i-2"] ++
          [Event.getServiceForType "instance",
            Event.verbosef ("syncing service for " ++ "instance" ++ " type"),
            Event.sync ["infra"]] ++ post ∧
      syncCalls post = 0) ∧
    syncCalls (run (RunE demoEnv demoEnv.ServiceRegistry false ["i-2"]) 0).2.trace = 2 :=
  have hl : run (RunE_lookup demoEnv demoEnv.ServiceRegistry false "i-2") 0 =
      (Outcome.ok (some demoI2, some ("infra", 1)),
        { world := 1,
          trace := [Event.enterFindResourceInLocalGraphs "i-2",
            Event.loadCurrentLocalGraph "infra", Event.findResource ("infra", 0) "i-2",
            Event.loadCurrentLocalGraph "access", Event.findResource ("access", 0) "i-2",
            Event.enterRunFullSync, Event.info "cannot resolve resource - running full sync",
            Event.sync ["infra", "access"],
            Event.enterFindResourceInLocalGraphs "i-2",
            Event.loadCurrentLocalGraph "infra", Event.findResource ("infra", 1) "i-2"] }) := by
    decide
  have hmiss : Misses demoEnv "i-2" 0 := by intro n hn; simp [demoEnv] at hn ⊢
  have h := (C4_targeted_resync_after_lookup demoEnv demoEnv.ServiceRegistry "i-2" [] 0
    demoI2 ("infra", 1) _ hl).2 "infra" rfl
  ⟨h.1.imp fun _ hp => ⟨hp.1, hp.2.1⟩, h.2.2.2.2.2 hmiss⟩

/-- C7: a sync failure aborts and is never retried.  With local-only mode off:
if no local graph holds the id and the `Sync` call of the full sync returns an
error, the command ends with that error right after that call, having made
one lookup and one `Sync` call and displayed or traversed nothing; and if the
lookup phase found a resource and the targeted `Sync` returns an error, the
command ends with that error right after that call, with nothing displayed or
traversed. -/
theorem C7_sync_failure_aborts (env : Env G S W) (order : List (String × S)) (id : String)
    (rest : List String) (w : W) :
    (∀ w1 e, Misses env id w →
      env.Sync (collectServices order) w = (w1, Except.error e) →
      run (RunE env order false (id :: rest)) w =
        (Outcome.exited e,
          { world := w1,
            trace := Event.enterFindResourceInLocalGraphs id ::
              loadEvents env id w env.ServiceNames ++ fullSyncEvents order }) ∧
      lookupCalls (run (RunE env order false (id :: rest)) w).2.trace = 1 ∧
      syncCalls (run (RunE env order false (id :: rest)) w).2.trace = 1 ∧
      displayCalls (run (RunE env order false (id :: rest)) w).2.trace = 0 ∧
      traversalCalls (run (RunE env order false (id :: rest)) w).2.trace = 0) ∧
    (∀ r g s1 srv w2 e,
      run (RunE_lookup env order false id) w = (Outcome.ok (some r, some g), s1) →
      env.GetServiceForType r.type = Except.ok srv →
      env.Sync [srv] s1.world = (w2, Except.error e) →
      run (RunE env order false (id :: rest)) w =
        (Outcome.exited e,
          { world := w2, trace := s1.trace ++ targetedSyncEvents r.type srv }) ∧
      displayCalls (run (RunE env order false (id :: rest)) w).2.trace = 0 ∧
      traversalCalls (run (RunE env order false (id :: rest)) w).2.trace = 0) := by
  constructor
  · intro w1 e hmiss hs
    have hf := find_miss env id { world := w, trace := [] } hmiss
    have hl := lookup_miss_sync_error env order id _ _ _ w1 e hf hs
    have hrun : run (RunE env order false (id :: rest)) w =
        (Outcome.exited e,
          { world := w1,
            trace := Event.enterFindResourceInLocalGraphs id ::
              loadEvents env id w env.ServiceNames ++ fullSyncEvents order }) := by
      rw [run, RunE_of_lookup_exited env order false id rest _ _ e hl]
      simp
    obtain ⟨c1, -, c3, c4, c5⟩ := loadEvents_counts env id w env.ServiceNames
    simp only [syncCalls, lookupCalls, traversalCalls, displayCalls] at c1 c3 c4 c5
    refine ⟨hrun, ?_, ?_, ?_, ?_⟩
    · rw [hrun]
      simp [lookupCalls, fullSyncEvents, List.countP_cons, List.countP_append, Event.isLookup, c3]
    · rw [hrun]
      simp [syncCalls, fullSyncEvents, List.countP_cons, List.countP_append, Event.isSync, c1]
    · rw [hrun]
      simp [displayCalls, fullSyncEvents, List.countP_cons, List.countP_append,
        Event.isDisplay, c5]
    · rw [hrun]
      simp [traversalCalls, fullSyncEvents, List.countP_cons, List.countP_append,
        Event.isTraversal, c4]
  · intro r g s1 srv w2 e hl hg hs
    obtain ⟨t, ht, -, -, k3, k4⟩ :=
      lookup_trace_counts env order false id { world := w, trace := [] }
    simp only [run] at hl
    rw [hl] at ht
    simp only [List.nil_append] at ht
    subst ht
    simp only [traversalCalls, displayCalls] at k3 k4
    have hsync := RunE_sync_error env r srv s1 w2 e hg hs
    have hrun : run (RunE env order false (id :: rest)) w =
        (Outcome.exited e,
          { world := w2, trace := s1.trace ++ targetedSyncEvents r.type srv }) := by
      rw [run, RunE_of_lookup_ok env order false id rest _ _ _ _ hl]
      simp [RunE_rest, M.bind, hsync]
    refine ⟨hrun, ?_, ?_⟩
    · rw [hrun]
      simp [displayCalls, targetedSyncEvents, List.countP_cons, List.countP_append,
        Event.isDisplay, k4]
    · rw [hrun]
      simp [traversalCalls, targetedSyncEvents, List.countP_cons, List.countP_append,
        Event.isTraversal, k3]

/-- C7 at the demo installation, where a sync started in generation 7 fails:
the full sync for `i-404`, and the targeted sync for `i-2`. -/
theorem C7_sync_failure_aborts_witness :
    (run (RunE demoEnv demoEnv.ServiceRegistry false ["i-404"]) 7).1 =
      Outcome.exited "fetch failed" ∧
    syncCalls (run (RunE demoEnv demoEnv.ServiceRegistry false ["i-404"]) 7).2.trace = 1 ∧
    lookupCalls (run (RunE demoEnv demoEnv.ServiceRegistry false ["i-404"]) 7).2.trace = 1 ∧
    (run (RunE demoEnv demoEnv.ServiceRegistry false ["i-2"]) 7).1 =
      Outcome.exited "fetch failed" ∧
    traversalCalls (run (RunE demoEnv demoEnv.ServiceRegistry false ["i-2"]) 7).2.trace = 0 :=
  have hmiss : Misses demoEnv "i-404" 7 := by intro n hn; simp [demoEnv] at hn ⊢
  have h1 := (C7_sync_failure_aborts demoEnv demoEnv.ServiceRegistry "i-404" [] 7).1 7
    "fetch failed" hmiss rfl
  have hl : run (RunE_lookup demoEnv demoEnv.ServiceRegistry false "i-2") 7 =
      (Outcome.ok (some demoI2, some ("infra", 7)),
        { world := 7,
          trace := [Event.enterFindResourceInLocalGraphs "i-2",
            Event.loadCurrentLocalGraph "infra", Event.findResource ("infra", 7) "i-2"] }) := by
    decide
  have h2 := (C7_sync_failure_aborts demoEnv demoEnv.ServiceRegistry "i-2" [] 7).2 demoI2
    ("infra", 7) _ "infra" 7 "fetch failed" hl rfl rfl
  ⟨by rw [h1.1], h1.2.2.1, h1.2.1, by rw [h2.1], h2.2.2⟩

/-- C3 fails on the code at the demo installation.  Showing `i-1` from
generation 0 performs the targeted resync of `infra`, which produces the graph
of generation 1 and makes it the persisted graph; yet all five relationship
queries that follow are made on the graph of generation 0, the one loaded by
the lookup before the resync. -/
theorem C3_traversal_on_graph_loaded_before_resync :
    demoEnv.Sync ["infra"] 0 = (1, Except.ok [("infra", ("infra", 1))]) ∧
    demoEnv.LoadCurrentLocalGraph 1 "infra" = ("infra", 1) ∧
    (run (RunE demoEnv demoEnv.ServiceRegistry false ["i-1"]) 0).2.world = 1 ∧
    (run (RunE demoEnv demoEnv.ServiceRegistry false ["i-1"]) 0).2.trace.filter
        (fun e => Event.isSync e || Event.isTraversal e) =
      [Event.sync ["infra"],
        Event.visitParents ("infra", 0) demoI1, Event.visitChildren ("infra", 0) demoI1,
        Event.visitSiblings ("infra", 0) demoI1,
        Event.listResourcesAppliedOn ("infra", 0) demoI1,
        Event.listResourcesDependingOn ("infra", 0) demoI1] ∧
    demoEnv.VisitParents ("infra", 0) demoI1 ≠ demoEnv.VisitParents ("infra", 1) demoI1 := by
  refine ⟨rfl, rfl, ?_, ?_, ?_⟩ <;> decide

end Awless
